import Mathlib

/-!
# direct_web_spider: a shallow embedding of `main.go`

The Go program is embedded as pure Lean functions.

* A Go `string` is a sequence of bytes (`GoString`); `len` is the number of bytes and a
  slice expression `s[:n]` / `s[n:]` fails at run time when `n` is out of range.  A run-time
  failure (panic) is the value `none` of `Option`.
* A function returning `(T, error)` returns a pair whose second part is `none` for `nil`.
* A method with a pointer receiver takes the pointed-to value and returns the new one.
  Where what a method does depends on a configuration that the caller can still write
  (`GetStats`, `CrawlWithCallback`), the configurations lie in a store and the spider holds
  an address (`SpiderRef`).
* `int` and `time.Duration` values are integers (`Int`); a duration counts nanoseconds.
  The setters, `Validate` and the crawl loop only compare them and add one to a loop counter
  that stays below `MaxPages`, so no operation on them leaves the 64-bit range.
  `ParseDelay` multiplies two `int64`: there the product is wrapped to 64 bits (`wrap64`).
* Effects on the outside world (log lines, waits, fetches) are recorded as a list of events;
  what a fetch returns, what the clock shows and the callback of the caller are parameters
  of the function that uses them.
* The functions `strconv.Atoi` and `time.ParseDuration` of the Go library, which
  `ParseDelay` calls, are written out from the library; the one floating-point expression of
  `time.ParseDuration` is a parameter.
-/

namespace DirectWebSpider

/-! ## Strings -/

/-- One byte of a Go string. -/
abbrev Byte := Fin 256

/-- A Go `string`: an immutable sequence of bytes, not necessarily well-formed UTF-8. -/
abbrev GoString := List Byte

/-- UTF-8 encoding of one code point, as the Go compiler stores a string literal. -/
def encodeRune (r : Nat) : GoString :=
  if r < 0x80 then [Fin.ofNat r]
  else if r < 0x800 then [Fin.ofNat (0xC0 + r / 0x40), Fin.ofNat (0x80 + r % 0x40)]
  else if r < 0x10000 then
    [Fin.ofNat (0xE0 + r / 0x1000), Fin.ofNat (0x80 + r / 0x40 % 0x40),
     Fin.ofNat (0x80 + r % 0x40)]
  else
    [Fin.ofNat (0xF0 + r / 0x40000), Fin.ofNat (0x80 + r / 0x1000 % 0x40),
     Fin.ofNat (0x80 + r / 0x40 % 0x40), Fin.ofNat (0x80 + r % 0x40)]

/-- The bytes of a string literal of the source. -/
def lit (s : String) : GoString :=
  s.data.flatMap (fun c => encodeRune c.toNat)

/-- Slice expression `s[:hi]`: fails when `hi > len(s)`. -/
def sliceTo (s : GoString) (hi : Nat) : Option GoString :=
  if hi ≤ s.length then some (s.take hi) else none

/-- Slice expression `s[lo:]`: fails when `lo > len(s)`. -/
def sliceFrom (s : GoString) (lo : Nat) : Option GoString :=
  if lo ≤ s.length then some (s.drop lo) else none

/-- Continuation byte test of the Go run time: `locb <= b && b <= hicb`. -/
def isCont (b : Byte) : Bool :=
  decide (0x80 ≤ b.val ∧ b.val ≤ 0xBF)

/-- Go run time `decoderune`, entered on a lead byte `b0 >= 0x80` followed by `rest`:
the rune and its width in bytes.  Every ill-formed, overlong, surrogate or out-of-range
sequence gives `RuneError` (U+FFFD) with width 1. -/
def decoderune (b0 : Byte) (rest : GoString) : Nat × Nat :=
  if 0xC0 ≤ b0.val ∧ b0.val < 0xE0 then
    match rest with
    | b1 :: _ =>
      if isCont b1 then
        let r := ((b0.val &&& 0x1F) <<< 6) ||| (b1.val &&& 0x3F)
        if 0x7F < r then (r, 2) else (0xFFFD, 1)
      else (0xFFFD, 1)
    | _ => (0xFFFD, 1)
  else if 0xE0 ≤ b0.val ∧ b0.val < 0xF0 then
    match rest with
    | b1 :: b2 :: _ =>
      if isCont b1 && isCont b2 then
        let r := ((b0.val &&& 0x0F) <<< 12) ||| ((b1.val &&& 0x3F) <<< 6) ||| (b2.val &&& 0x3F)
        if 0x7FF < r ∧ ¬ (0xD800 ≤ r ∧ r ≤ 0xDFFF) then (r, 3) else (0xFFFD, 1)
      else (0xFFFD, 1)
    | _ => (0xFFFD, 1)
  else if 0xF0 ≤ b0.val ∧ b0.val < 0xF8 then
    match rest with
    | b1 :: b2 :: b3 :: _ =>
      if isCont b1 && isCont b2 && isCont b3 then
        let r := ((b0.val &&& 0x07) <<< 18) ||| ((b1.val &&& 0x3F) <<< 12)
                   ||| ((b2.val &&& 0x3F) <<< 6) ||| (b3.val &&& 0x3F)
        if 0xFFFF < r ∧ r ≤ 0x10FFFF then (r, 4) else (0xFFFD, 1)
      else (0xFFFD, 1)
    | _ => (0xFFFD, 1)
  else (0xFFFD, 1)

/-- One step of `for i, r := range s`: the rune at the head of a non-empty string and its
width.  A byte below `utf8.RuneSelf` (0x80) is its own rune. -/
def rangeStep (b0 : Byte) (rest : GoString) : Nat × Nat :=
  if b0.val < 0x80 then (b0.val, 1) else decoderune b0 rest

/-- The iterations of `for i, r := range s` from byte index `i` on, as pairs
`(index, rune)`; `skip` is the number of bytes of the current rune still to pass over. -/
def rangeFrom : Nat → Nat → GoString → List (Nat × Nat)
  | _, _, [] => []
  | skip + 1, i, _ :: rest => rangeFrom skip (i + 1) rest
  | 0, i, b0 :: rest =>
    (i, (rangeStep b0 rest).1) :: rangeFrom ((rangeStep b0 rest).2 - 1) (i + 1) rest

/-- All iterations of `for i, r := range s`, in order. -/
def range (s : GoString) : List (Nat × Nat) :=
  rangeFrom 0 0 s

/-! ## Errors -/

/-- An operand of a `fmt` format string. -/
inductive FmtArg where
  | int (v : Int)
  | str (s : GoString)
  | dur (d : Int)
  deriving DecidableEq, Repr

/-- An `error` value: `errorf` is `fmt.Errorf(format, args...)`, `wrapf` is the same call
with a final `%w` operand `inner`, `external` is an error made by a library. -/
inductive GoError where
  | errorf (format : String) (args : List FmtArg)
  | wrapf (format : String) (args : List FmtArg) (inner : GoError)
  | external (text : String)
  deriving DecidableEq, Repr

/-! ## URL utilities -/

/-- Source `IsValidURL`:
`if url == "" { return false }` then
`return len(url) > 7 && (url[:7] == "http://" || url[:8] == "https://")`,
with the short-circuit evaluation of `&&` and `||`. -/
def IsValidURL (url : GoString) : Option Bool :=
  if url = [] then some false
  else if url.length > 7 then do
    let p7 ← sliceTo url 7
    if p7 = lit "http://" then pure true
    else do
      let p8 ← sliceTo url 8
      pure (decide (p8 = lit "https://"))
  else some false

/-- The loop of `ExtractDomain`,
`for i, char := range url { if char == '/' { slashIndex = i; break } }`:
the index of the first iteration whose rune is `'/'`, or `slashIndex` unchanged. -/
def findSlash (url : GoString) (slashIndex : Nat) : Nat :=
  match (range url).find? (fun p => p.2 == 0x2F) with
  | some p => p.1
  | none => slashIndex

/-- Source `ExtractDomain`: the domain and the error. -/
def ExtractDomain (url : GoString) : Option (GoString × Option GoError) := do
  let valid ← IsValidURL url
  if !valid then
    pure ([], some (.errorf "invalid URL: %s" [.str url]))
  else do
    let isHttp ←
      if url.length > 7 then (sliceTo url 7).map (fun p => decide (p = lit "http://"))
      else some false
    let url1 ←
      if isHttp then sliceFrom url 7
      else do
        let isHttps ←
          if url.length > 8 then (sliceTo url 8).map (fun p => decide (p = lit "https://"))
          else some false
        if isHttps then sliceFrom url 8 else pure url
    let slashIndex := url1.length
    let url2 ← if slashIndex > 0 then sliceTo url1 (findSlash url1 slashIndex) else pure url1
    pure (url2, none)

/-! ## Configuration -/

/-- Constant `time.Second`, in nanoseconds. -/
def time.Second : Int := 1000000000

/-- Source `SpiderConfig`. -/
structure SpiderConfig where
  MaxDepth : Int
  MaxPages : Int
  Delay : Int
  UserAgent : GoString
  Timeout : Int
  Concurrency : Int
  deriving DecidableEq, Repr

/-- Source `NewSpiderConfig`. -/
def NewSpiderConfig : SpiderConfig :=
  { MaxDepth := 3
    MaxPages := 100
    Delay := time.Second
    UserAgent := lit "DirectWebSpider/1.0"
    Timeout := 30 * time.Second
    Concurrency := 5 }

/-- Source `SetMaxDepth`: the configuration after the call and the error. -/
def SpiderConfig.SetMaxDepth (c : SpiderConfig) (depth : Int) : SpiderConfig × Option GoError :=
  if depth < 0 then (c, some (.errorf "max depth cannot be negative" []))
  else ({ c with MaxDepth := depth }, none)

/-- Source `SetMaxPages`. -/
def SpiderConfig.SetMaxPages (c : SpiderConfig) (pages : Int) : SpiderConfig × Option GoError :=
  if pages < 0 then (c, some (.errorf "max pages cannot be negative" []))
  else ({ c with MaxPages := pages }, none)

/-- Source `SetDelay`. -/
def SpiderConfig.SetDelay (c : SpiderConfig) (delay : Int) : SpiderConfig × Option GoError :=
  if delay < 0 then (c, some (.errorf "delay cannot be negative" []))
  else ({ c with Delay := delay }, none)

/-- Source `SetUserAgent`. -/
def SpiderConfig.SetUserAgent (c : SpiderConfig) (ua : GoString) :
    SpiderConfig × Option GoError :=
  if ua = [] then (c, some (.errorf "user agent cannot be empty" []))
  else ({ c with UserAgent := ua }, none)

/-- Source `SetTimeout`. -/
def SpiderConfig.SetTimeout (c : SpiderConfig) (timeout : Int) : SpiderConfig × Option GoError :=
  if timeout ≤ 0 then (c, some (.errorf "timeout must be positive" []))
  else ({ c with Timeout := timeout }, none)

/-- Source `SetConcurrency`. -/
def SpiderConfig.SetConcurrency (c : SpiderConfig) (concurrency : Int) :
    SpiderConfig × Option GoError :=
  if concurrency < 1 then (c, some (.errorf "concurrency must be at least 1" []))
  else ({ c with Concurrency := concurrency }, none)

/-- Source `Validate`: the first failing check decides the error. -/
def SpiderConfig.Validate (c : SpiderConfig) : Option GoError :=
  if c.MaxDepth < 0 then some (.errorf "invalid max depth: %d" [.int c.MaxDepth])
  else if c.MaxPages < 0 then some (.errorf "invalid max pages: %d" [.int c.MaxPages])
  else if c.Delay < 0 then some (.errorf "invalid delay: %v" [.dur c.Delay])
  else if c.UserAgent = [] then some (.errorf "user agent cannot be empty" [])
  else if c.Timeout ≤ 0 then some (.errorf "invalid timeout: %v" [.dur c.Timeout])
  else if c.Concurrency < 1 then some (.errorf "invalid concurrency: %d" [.int c.Concurrency])
  else none

/-- One call of a setter with its argument. -/
inductive SetterCall where
  | setMaxDepth (depth : Int)
  | setMaxPages (pages : Int)
  | setDelay (delay : Int)
  | setUserAgent (ua : GoString)
  | setTimeout (timeout : Int)
  | setConcurrency (concurrency : Int)
  deriving DecidableEq, Repr

/-- Run one setter call on a configuration: the configuration after it and the error. -/
def SetterCall.run (c : SpiderConfig) : SetterCall → SpiderConfig × Option GoError
  | .setMaxDepth depth => c.SetMaxDepth depth
  | .setMaxPages pages => c.SetMaxPages pages
  | .setDelay delay => c.SetDelay delay
  | .setUserAgent ua => c.SetUserAgent ua
  | .setTimeout timeout => c.SetTimeout timeout
  | .setConcurrency concurrency => c.SetConcurrency concurrency

/-- Run a sequence of setter calls in order, errors ignored: the final configuration. -/
def runSetters (c : SpiderConfig) (calls : List SetterCall) : SpiderConfig :=
  calls.foldl (fun cfg call => (call.run cfg).1) c

/-! ## Spider -/

/-- The `http.Client` of the spider: only `Timeout` is set, the other fields are zero. -/
structure http.Client where
  Timeout : Int
  deriving DecidableEq, Repr

/-- The `log.Logger` built by `log.New(out, tag, flag)`: `tag` is put before every line. -/
structure log.Logger where
  out : String
  tag : String
  flag : Nat
  deriving DecidableEq, Repr

/-- Constant `log.LstdFlags`, which is `Ldate | Ltime`. -/
def log.LstdFlags : Nat := 3

/-- Source `Spider`.  The three fields are pointers in the source; `NewSpider`, the one place
where a `Spider` is built, fills each with a non-nil value, and the structure holds the
values pointed to. -/
structure Spider where
  config : SpiderConfig
  client : http.Client
  logger : log.Logger
  deriving DecidableEq, Repr

/-- Source `NewSpider`: the argument is a pointer, `none` for `nil`; the result is the
pointer to the new spider (`none` for `nil`) and the error. -/
def NewSpider (config : Option SpiderConfig) : Option Spider × Option GoError :=
  match config with
  | none => (none, some (.errorf "config cannot be nil" []))
  | some cfg =>
    match cfg.Validate with
    | some err => (none, some (.wrapf "invalid config: %w" [] err))
    | none =>
      let client : http.Client := { Timeout := cfg.Timeout }
      let logger : log.Logger := { out := "os.Stdout", tag := "[SPIDER] ", flag := log.LstdFlags }
      (some { config := cfg, client := client, logger := logger }, none)

/-- What `s.client.Get(url)` returned: a response, or an error. -/
inductive FetchResult where
  | response
  | failure (err : GoError)
  deriving DecidableEq, Repr

/-- An effect of a crawl on the outside world: a line given to `s.logger.Printf`
(`printfErr` when an error is among the operands), a wait `<-time.After(d)`, a call
`s.client.Get(url)`, a call `resp.Body.Close()`. -/
inductive Event where
  | printf (format : String) (args : List FmtArg)
  | printfErr (format : String) (args : List FmtArg) (err : GoError)
  | after (d : Int)
  | get (url : GoString)
  | closeBody
  deriving DecidableEq, Repr

/-- The loop of `Crawl`, `for i := 0; i < s.config.MaxPages; i++`, entered with counter
`i` after the events `t`; `net k` is what the fetch of iteration `k` returns.  The events
after the loop has ended. -/
def Spider.crawlLoop (s : Spider) (url : GoString) (net : Nat → FetchResult)
    (i : Int) (t : List Event) : List Event :=
  if i < s.config.MaxPages then
    let t1 := t ++ [.after s.config.Delay,
      .printf "Crawling page %d/%d" [.int (i + 1), .int s.config.MaxPages],
      .get url]
    match net i.toNat with
    | .failure err =>
      s.crawlLoop url net (i + 1)
        (t1 ++ [.printfErr "Error fetching %s: %v" [.str url] err])
    | .response =>
      s.crawlLoop url net (i + 1)
        (t1 ++ [.closeBody, .printf "Successfully crawled page %d" [.int (i + 1)]])
  else t
termination_by (s.config.MaxPages - i).toNat
decreasing_by all_goals omega

/-- Source `Crawl`: the events of the call and the error. -/
def Spider.Crawl (s : Spider) (url : GoString) (net : Nat → FetchResult) :
    List Event × Option GoError :=
  if url = [] then ([], some (.errorf "URL cannot be empty" []))
  else
    let t := s.crawlLoop url net 0 [.printf "Starting crawl from: %s" [.str url]]
    (t ++ [.printf "Crawl completed" []], none)

/-- Source constant `DefaultMaxDepth`. -/
def DefaultMaxDepth : Int := 3

/-- Source constant `DefaultMaxPages`. -/
def DefaultMaxPages : Int := 100

/-- Source constant `DefaultDelay`. -/
def DefaultDelay : Int := time.Second

/-- Source constant `DefaultUserAgent`. -/
def DefaultUserAgent : GoString := lit "DirectWebSpider/1.0"

/-- Source constant `DefaultTimeout`. -/
def DefaultTimeout : Int := 30 * time.Second

/-- Source constant `DefaultConcurrency`. -/
def DefaultConcurrency : Int := 5

/-! ## Spider: callback crawl and statistics -/

/-- The events of iteration `k` (counted from 0) of the loop of `Crawl`: the wait, the log
line, the fetch, and what follows a failed or an answered fetch. -/
def Spider.crawlPage (s : Spider) (url : GoString) (net : Nat → FetchResult) (k : Nat) :
    List Event :=
  [.after s.config.Delay,
    .printf "Crawling page %d/%d" [.int ((k : Int) + 1), .int s.config.MaxPages],
    .get url] ++
  match net k with
  | .failure err => [.printfErr "Error fetching %s: %v" [.str url] err]
  | .response => [.closeBody, .printf "Successfully crawled page %d" [.int ((k : Int) + 1)]]

/-- The verb `%d` of `fmt` on an integer: its decimal digits, after a minus sign when it is
negative. -/
def formatInt (v : Int) : GoString :=
  lit (toString v)

/-- The call `fmt.Sprintf("%s/page%d", url, n)`. -/
def pageURL (url : GoString) (n : Int) : GoString :=
  url ++ lit "/page" ++ formatInt n

/-- A value stored under `interface{}` in the maps of the program. -/
inductive GoValue where
  | int (v : Int)
  | str (s : GoString)
  | bool (b : Bool)
  deriving DecidableEq, Repr

/-- A `map[string]interface{}` written as a map literal: its entries, with distinct keys. -/
abbrev GoMap := List (String × GoValue)

/-! ## Spider: the configuration behind its pointer

`NewSpider` keeps the pointer it is given, so the caller and the spider share one
configuration.  For the methods whose result depends on what the caller does to that
configuration (`GetStats`, and `CrawlWithCallback`, whose callback is code of the caller),
the configurations lie in a store and the spider holds an address. -/

/-- A non-nil pointer `*SpiderConfig`: the address of a configuration. -/
abbrev ConfigPtr := Nat

/-- The memory of the program as far as configurations go: the configuration that lies at
each address.  The caller reads and writes it through the pointers it holds. -/
abbrev Store := ConfigPtr → SpiderConfig

/-- An assignment through a pointer: after it the configuration at `p` is `c`. -/
def Store.write (m : Store) (p : ConfigPtr) (c : SpiderConfig) : Store :=
  fun q => if q = p then c else m q

/-- Source `Spider`, with the field `config` as the pointer that it is in the source. -/
structure SpiderRef where
  config : ConfigPtr
  client : http.Client
  logger : log.Logger
  deriving DecidableEq, Repr

/-- The spider as a method finds it in a store: `s.config` followed to the configuration
that lies there. -/
def SpiderRef.load (r : SpiderRef) (m : Store) : Spider :=
  { config := m r.config, client := r.client, logger := r.logger }

/-- Source `NewSpider` on a pointer into a store (`none` for `nil`): the spider keeps the
pointer itself, `config: config`, and copies nothing but `config.Timeout`, into the client.
The store is not written. -/
def NewSpiderRef (m : Store) (config : Option ConfigPtr) :
    Option SpiderRef × Option GoError :=
  match config with
  | none => (none, some (.errorf "config cannot be nil" []))
  | some p =>
    match (m p).Validate with
    | some err => (none, some (.wrapf "invalid config: %w" [] err))
    | none =>
      let client : http.Client := { Timeout := (m p).Timeout }
      let logger : log.Logger := { out := "os.Stdout", tag := "[SPIDER] ", flag := log.LstdFlags }
      (some { config := p, client := client, logger := logger }, none)

/-- Source `GetStats` in the store `m` of the time of the call: the store after the call and
the map, whose values are read through `s.config`.  `durationString` is the method `String`
of `time.Duration` of the Go library. -/
def SpiderRef.GetStats (durationString : Int → GoString) (r : SpiderRef) (m : Store) :
    Store × GoMap :=
  (m,
    [("max_depth", .int (m r.config).MaxDepth),
     ("max_pages", .int (m r.config).MaxPages),
     ("delay", .str (durationString (m r.config).Delay)),
     ("user_agent", .str (m r.config).UserAgent),
     ("timeout", .str (durationString (m r.config).Timeout)),
     ("concurrency", .int (m r.config).Concurrency)])

/-- The loop of `CrawlWithCallback`, `for i := 0; i < s.config.MaxPages; i++`, entered with
counter `i`, after the events `t`, in the store `m` and the state `st` of the caller.  Each
turn reads `s.config.MaxPages` and `s.config.Delay` anew in the store as the callback has
left it: the callback is code of the caller and may write the store as well as the state of
the caller.  A callback can keep the loop going for ever by raising `MaxPages`, so the loop
is given a number of turns: `none` is for a loop that has not ended within `fuel` tests of
its condition. -/
def SpiderRef.callbackLoop {σ : Type} (r : SpiderRef) (url : GoString)
    (callback : GoString → Option GoError → Store × σ → Store × σ) :
    Nat → Int → List Event → Store → σ → Option (List Event × Store × σ)
  | 0, _, _, _, _ => none
  | fuel + 1, i, t, m, st =>
    if i < (m r.config).MaxPages then
      SpiderRef.callbackLoop r url callback fuel (i + 1) (t ++ [.after (m r.config).Delay])
        (callback (pageURL url (i + 1)) none (m, st)).1
        (callback (pageURL url (i + 1)) none (m, st)).2
    else some (t, m, st)

/-- Source `CrawlWithCallback`; the callback is `none` for `nil`.  The events of the call,
the store and the state of the caller after it, and the error; `none` when the loop has not
ended within `fuel` tests of its condition. -/
def SpiderRef.CrawlWithCallback {σ : Type} (r : SpiderRef) (fuel : Nat) (url : GoString)
    (callback : Option (GoString → Option GoError → Store × σ → Store × σ))
    (m : Store) (st : σ) : Option (List Event × Store × σ × Option GoError) :=
  if url = [] then some ([], m, st, some (.errorf "URL cannot be empty" []))
  else
    match callback with
    | none => some ([], m, st, some (.errorf "callback cannot be nil" []))
    | some cb =>
      match r.callbackLoop url cb fuel 0
        [.printf "Starting crawl with callback from: %s" [.str url]] m st with
      | none => none
      | some x => some (x.1, x.2.1, x.2.2, none)

/-! ## URL processing -/

/-- Source `ProcessURL`: the map (`none` for `nil`) and the error; `now` is what
`time.Now().Unix()` returns. -/
def ProcessURL (now : Int) (url : GoString) : Option (Option GoMap × Option GoError) := do
  let valid ← IsValidURL url
  if !valid then
    pure (none, some (.errorf "invalid URL: %s" [.str url]))
  else do
    let r ← ExtractDomain url
    match r.2 with
    | some err => pure (none, some (.wrapf "failed to extract domain: %w" [] err))
    | none =>
      pure (some [("url", .str url), ("domain", .str r.1), ("valid", .bool true),
        ("time", .int now)], none)

/-- The loop of `BatchProcessURLs`, `for i, url := range urls`, at index `i` with `results`
collected so far; `clock k` is what `time.Now().Unix()` returns in the call of index `k`. -/
def batchLoop (clock : Nat → Int) :
    Nat → List GoString → List (Option GoMap) →
      Option (Option (List (Option GoMap)) × Option GoError)
  | _, [], results => some (some results, none)
  | i, url :: rest, results =>
    match ProcessURL (clock i) url with
    | none => none
    | some (_, some err) =>
      some (none, some (.wrapf "failed to process URL %d (%s): %w" [.int i, .str url] err))
    | some (result, none) => batchLoop clock (i + 1) rest (results ++ [result])

/-- Source `BatchProcessURLs`: the slice of maps (`none` for `nil`) and the error. -/
def BatchProcessURLs (clock : Nat → Int) (urls : List GoString) :
    Option (Option (List (Option GoMap)) × Option GoError) :=
  if urls.length = 0 then some (none, some (.errorf "URLs list cannot be empty" []))
  else batchLoop clock 0 urls []

/-! ## Go library: `strconv.Atoi` and `time.ParseDuration`

These two functions are not code of the repository; they are written from the Go library
(64-bit `int`).  The error texts are shortened: `ParseDelay` drops them. -/

/-- Conversion to `int64` of an integer, as the wrap-around of 64-bit arithmetic. -/
def wrap64 (x : Int) : Int :=
  (x + 2 ^ 63) % 2 ^ 64 - 2 ^ 63

/-- Test `'0' <= c && c <= '9'`. -/
def isDigit (c : Byte) : Bool :=
  decide (0x30 ≤ c.val ∧ c.val ≤ 0x39)

/-- The number written by a string of decimal digits, read after the value `acc`. -/
def digitsValue : GoString → Nat → Nat
  | [], acc => acc
  | c :: s, acc => digitsValue s (acc * 10 + (c.val - 0x30))

/-- Go library `strconv.Atoi`: an optional sign and then one or more decimal digits, in the
range of `int`; the value and the error. -/
def strconv.Atoi (s : GoString) : Int × Option GoError :=
  match s with
  | [] => (0, some (.external "strconv.Atoi: invalid syntax"))
  | c :: rest =>
    let neg := decide (c = 0x2D)
    let body := if c = 0x2D ∨ c = 0x2B then rest else s
    if body = [] ∨ ¬ body.all isDigit then
      (0, some (.external "strconv.Atoi: invalid syntax"))
    else
      let un := digitsValue body 0
      if ¬ neg ∧ un ≥ 2 ^ 63 then
        (2 ^ 63 - 1, some (.external "strconv.Atoi: value out of range"))
      else if neg ∧ un > 2 ^ 63 then
        (-(2 ^ 63), some (.external "strconv.Atoi: value out of range"))
      else (if neg then -(un : Int) else (un : Int), none)

/-- Go library `leadingInt` of package `time`, entered with the value `x` read so far: the
digits at the head of the string as a number and the rest, or `none` for the overflow
error. -/
def leadingInt : GoString → Nat → Option (Nat × GoString)
  | [], x => some (x, [])
  | c :: s, x =>
    if c.val < 0x30 ∨ c.val > 0x39 then some (x, c :: s)
    else if x > 2 ^ 63 / 10 then none
    else if x * 10 + (c.val - 0x30) > 2 ^ 63 then none
    else leadingInt s (x * 10 + (c.val - 0x30))

/-- Go library `leadingFraction` of package `time`, entered with the value `x`, the scale
and the overflow flag so far: the digits at the head as a number, the power of ten that
scales it, and the rest.  Digits after an overflow are passed over. -/
def leadingFraction : GoString → Nat → Nat → Bool → Nat × Nat × GoString
  | [], x, scale, _ => (x, scale, [])
  | c :: s, x, scale, overflow =>
    if c.val < 0x30 ∨ c.val > 0x39 then (x, scale, c :: s)
    else if overflow then leadingFraction s x scale true
    else if x > (2 ^ 63 - 1) / 10 then leadingFraction s x scale true
    else if x * 10 + (c.val - 0x30) > 2 ^ 63 then leadingFraction s x scale true
    else leadingFraction s (x * 10 + (c.val - 0x30)) (scale * 10) false

/-- The scan for the end of the unit in `time.ParseDuration`: the number of bytes at the
head that are neither a period nor a digit. -/
def unitLength : GoString → Nat
  | [] => 0
  | c :: s => if c = 0x2E ∨ isDigit c then 0 else unitLength s + 1

/-- Go library `unitMap` of package `time`: the nanoseconds of a unit. -/
def unitMap (u : GoString) : Option Nat :=
  if u = lit "ns" then some 1
  else if u = lit "us" then some 1000
  else if u = lit "µs" then some 1000
  else if u = lit "μs" then some 1000
  else if u = lit "ms" then some 1000000
  else if u = lit "s" then some 1000000000
  else if u = lit "m" then some 60000000000
  else if u = lit "h" then some 3600000000000
  else none

/-- The step of `time.ParseDuration` that reads a period and the digits after it, on the
string left after the leading integer: the digits as a number `f`, their scale, the rest of
the string, and `post`, whether a digit was read.  Without a period nothing is read. -/
def fractionPart (s1 : GoString) : Nat × Nat × GoString × Bool :=
  match s1 with
  | c1 :: r =>
    if c1 = 0x2E then
      ((leadingFraction r 0 1 false).1, (leadingFraction r 0 1 false).2.1,
        (leadingFraction r 0 1 false).2.2,
        decide (r.length ≠ (leadingFraction r 0 1 false).2.2.length))
    else (0, 1, s1, false)
  | [] => (0, 1, s1, false)

/-- The step `Consume unit` of `time.ParseDuration` and the arithmetic after it, for the
integer `v`, the fraction `f` with its scale, and the string `s2` left: the nanoseconds in
`uint64` and the rest of the string.  The library computes the part that comes from the
fraction in floating point: `fracNanos f unit scale` stands for
`uint64(float64(f) * (float64(unit) / scale))`. -/
def unitPart (fracNanos : Nat → Nat → Nat → Nat) (v f scale : Nat) (s2 : GoString) :
    Except GoError (Nat × GoString) :=
  if unitLength s2 = 0 then .error (.external "time: missing unit in duration")
  else
    match unitMap (s2.take (unitLength s2)) with
    | none => .error (.external "time: unknown unit in duration")
    | some unit =>
      if v > 2 ^ 63 / unit then .error (.external "time: invalid duration")
      else if f > 0 then
        if (v * unit + fracNanos f unit scale) % 2 ^ 64 > 2 ^ 63 then
          .error (.external "time: invalid duration")
        else .ok ((v * unit + fracNanos f unit scale) % 2 ^ 64, s2.drop (unitLength s2))
      else .ok (v * unit, s2.drop (unitLength s2))

/-- One turn of the loop of `time.ParseDuration` on a non-empty string: the nanoseconds of
the number with unit at its head, in `uint64`, and the rest of the string. -/
def parseTerm (fracNanos : Nat → Nat → Nat → Nat) (s : GoString) :
    Except GoError (Nat × GoString) :=
  match s with
  | [] => .error (.external "time: invalid duration")
  | c :: _ =>
    if ¬ (c = 0x2E ∨ isDigit c) then .error (.external "time: invalid duration")
    else
      match leadingInt s 0 with
      | none => .error (.external "time: invalid duration")
      | some (v, s1) =>
        if s.length = s1.length ∧ (fractionPart s1).2.2.2 = false then
          .error (.external "time: invalid duration")
        else unitPart fracNanos v (fractionPart s1).1 (fractionPart s1).2.1 (fractionPart s1).2.2.1

/-- The loop `for s != ""` of `time.ParseDuration`, with the sum `d` so far: the sum at the
end, or the error.  Each turn shortens the string, so `fuel` turns are enough when `fuel` is
the length of the string; `none` is for a loop that has not ended within `fuel` turns. -/
def parseDurationLoop (fracNanos : Nat → Nat → Nat → Nat) :
    Nat → GoString → Nat → Option (Except GoError Nat)
  | _, [], d => some (.ok d)
  | 0, _ :: _, _ => none
  | fuel + 1, c :: s, d =>
    match parseTerm fracNanos (c :: s) with
    | .error err => some (.error err)
    | .ok (v, rest) =>
      if (d + v) % 2 ^ 64 > 2 ^ 63 then some (.error (.external "time: invalid duration"))
      else parseDurationLoop fracNanos fuel rest ((d + v) % 2 ^ 64)

/-- The body of `time.ParseDuration` after the sign has been read: `neg` tells whether the
sign was a minus, `s` is the string after the sign. -/
def durationBody (fracNanos : Nat → Nat → Nat → Nat) (neg : Bool) (s : GoString) :
    Option (Int × Option GoError) :=
  if s = lit "0" then some (0, none)
  else if s = [] then some (0, some (.external "time: invalid duration"))
  else
    match parseDurationLoop fracNanos s.length s 0 with
    | none => none
    | some (.error err) => some (0, some err)
    | some (.ok d) =>
      if neg then some (wrap64 (-(wrap64 (d : Int))), none)
      else if d > 2 ^ 63 - 1 then some (0, some (.external "time: invalid duration"))
      else some ((d : Int), none)

/-- Go library `time.ParseDuration`: the duration in nanoseconds and the error.  A sign at
the head is read first. -/
def time.ParseDuration (fracNanos : Nat → Nat → Nat → Nat) (s : GoString) :
    Option (Int × Option GoError) :=
  match s with
  | [] => durationBody fracNanos false []
  | c :: rest =>
    if c = 0x2D ∨ c = 0x2B then durationBody fracNanos (decide (c = 0x2D)) rest
    else durationBody fracNanos false (c :: rest)

/-! ## Delay parsing -/

/-- Source `ParseDelay`: the duration and the error.  The product
`time.Duration(seconds) * time.Second` is a product of `int64`. -/
def ParseDelay (fracNanos : Nat → Nat → Nat → Nat) (delayStr : GoString) :
    Option (Int × Option GoError) :=
  if delayStr = [] then some (0, some (.errorf "delay string cannot be empty" []))
  else
    match time.ParseDuration fracNanos delayStr with
    | none => none
    | some (duration, err) =>
      let parsed : Int × Option GoError :=
        match err with
        | some _ =>
          match strconv.Atoi delayStr with
          | (_, some _) => (0, some (.errorf "invalid delay format: %s" [.str delayStr]))
          | (seconds, none) => (wrap64 (seconds * time.Second), none)
        | none => (duration, none)
      match parsed.2 with
      | some e => some (0, some e)
      | none =>
        if parsed.1 < 0 then some (0, some (.errorf "delay cannot be negative" []))
        else some (parsed.1, none)

/-! ## Error type -/

/-- Source `SpiderError`.  The field `Type` keeps its name; it is written between
guillemets because `Type` is also a word of the language of this file. -/
structure SpiderError where
  «Type» : GoString
  Message : GoString
  URL : GoString
  deriving DecidableEq, Repr

/-- Source `Error` of `SpiderError`:
`fmt.Sprintf("%s: %s (URL: %s)", e.Type, e.Message, e.URL)`, the three strings put in the
places of the three verbs `%s`. -/
def SpiderError.Error (e : SpiderError) : GoString :=
  e.«Type» ++ lit ": " ++ e.Message ++ lit " (URL: " ++ e.URL ++ lit ")"

/-- Source `NewSpiderError`: the error value the returned pointer points to. -/
def NewSpiderError (errorType message url : GoString) : SpiderError :=
  { «Type» := errorType
    Message := message
    URL := url }

/-! ## Lemmas on strings and the URL utilities -/

theorem lit_http : lit "http://" = [104, 116, 116, 112, 58, 47, 47] := by decide

theorem lit_https : lit "https://" = [104, 116, 116, 112, 115, 58, 47, 47] := by decide

theorem isCont_ne_slash {b : Byte} (h : isCont b = true) : b ≠ (0x2F : Byte) := by
  intro hb
  subst hb
  exact absurd h (by decide)

theorem decoderune_spec (b0 : Byte) (rest : GoString) :
    (decoderune b0 rest).1 ≠ 0x2F ∧
      ∀ x ∈ rest.take ((decoderune b0 rest).2 - 1), x ≠ (0x2F : Byte) := by
  unfold decoderune
  split_ifs with h1 h2 h3
  · rcases rest with _ | ⟨b1, t⟩
    · simp
    · dsimp only
      split_ifs with c1 r1
      · refine ⟨by dsimp only; omega, ?_⟩
        intro x hx
        simp at hx
        subst hx
        exact isCont_ne_slash c1
      · simp
      · simp
  · rcases rest with _ | ⟨b1, _ | ⟨b2, t⟩⟩
    · simp
    · simp
    · dsimp only
      split_ifs with c1 r1
      · simp only [Bool.and_eq_true] at c1
        refine ⟨by dsimp only; omega, ?_⟩
        intro x hx
        simp at hx
        rcases hx with hx | hx <;> subst hx
        · exact isCont_ne_slash c1.1
        · exact isCont_ne_slash c1.2
      · simp
      · simp
  · rcases rest with _ | ⟨b1, _ | ⟨b2, _ | ⟨b3, t⟩⟩⟩
    · simp
    · simp
    · simp
    · dsimp only
      split_ifs with c1 r1
      · simp only [Bool.and_eq_true] at c1
        refine ⟨by dsimp only; omega, ?_⟩
        intro x hx
        simp at hx
        rcases hx with hx | hx | hx <;> subst hx
        · exact isCont_ne_slash c1.1.1
        · exact isCont_ne_slash c1.1.2
        · exact isCont_ne_slash c1.2
      · simp
      · simp
  · simp

/-- The rune of one `range` step is `'/'` exactly when the head byte is, and the bytes
passed over after the head are continuation bytes. -/
theorem rangeStep_spec (b0 : Byte) (rest : GoString) :
    ((rangeStep b0 rest).1 = 0x2F ↔ b0 = 0x2F) ∧
      ∀ x ∈ rest.take ((rangeStep b0 rest).2 - 1), x ≠ (0x2F : Byte) := by
  unfold rangeStep
  by_cases h0 : b0.val < 0x80
  · simp only [h0, if_true]
    refine ⟨⟨fun h => ?_, fun h => ?_⟩, by simp⟩
    · apply Fin.ext
      simpa using h
    · subst h
      rfl
  · simp only [h0, if_false]
    refine ⟨⟨fun h => absurd h (decoderune_spec b0 rest).1, fun h => ?_⟩,
      (decoderune_spec b0 rest).2⟩
    subst h
    exact absurd (by decide) h0

theorem findFrom_eq (s : GoString) :
    ∀ skip i n : Nat, (∀ x ∈ s.take skip, x ≠ (0x2F : Byte)) →
      (match (rangeFrom skip i s).find? (fun p => p.2 == 0x2F) with
        | some p => p.1
        | none => n)
        = if (0x2F : Byte) ∈ s then i + (s.takeWhile (fun b => b != 0x2F)).length else n := by
  induction s with
  | nil => intro skip i n _; simp [rangeFrom]
  | cons b rest ih =>
    intro skip i n hskip
    cases skip with
    | succ k =>
      have hb : b ≠ (0x2F : Byte) := hskip b (by simp)
      have hrest : ∀ x ∈ rest.take k, x ≠ (0x2F : Byte) := fun x hx =>
        hskip x (by simp [List.take_succ_cons, hx])
      have hb2 : ¬ ((0x2F : Byte) = b) := fun h => hb h.symm
      simp only [rangeFrom, ih k (i + 1) n hrest, List.mem_cons, hb2, false_or]
      split_ifs
      · simp [List.takeWhile_cons, hb]
        ring
      · rfl
    | zero =>
      obtain ⟨hr, hw⟩ := rangeStep_spec b rest
      by_cases hb : b = (0x2F : Byte)
      · subst hb
        simp [rangeFrom, hr.2 rfl]
      · have hr2 : ¬ ((rangeStep b rest).1 = 0x2F) := fun h => hb (hr.1 h)
        have hb2 : ¬ ((0x2F : Byte) = b) := fun h => hb h.symm
        have hbeq : ((rangeStep b rest).1 == 0x2F) = false := by simpa using hr2
        simp only [rangeFrom, List.find?_cons, hbeq, ih _ (i + 1) n hw, List.mem_cons, hb2,
          false_or]
        split_ifs
        · simp [List.takeWhile_cons, hb]
          ring
        · rfl

theorem findSlash_eq (s : GoString) :
    findSlash s s.length = (s.takeWhile (fun b => b != 0x2F)).length := by
  have h := findFrom_eq s 0 0 s.length (by simp)
  unfold findSlash range
  rw [h]
  split_ifs with hm
  · simp
  · symm
    congr 1
    rw [List.takeWhile_eq_self_iff]
    intro x hx
    simp
    intro hx2
    exact hm (hx2 ▸ hx)

theorem take_findSlash (s : GoString) :
    s.take (findSlash s s.length) = s.takeWhile (fun b => b != 0x2F) := by
  rw [findSlash_eq]
  induction s with
  | nil => rfl
  | cons b rest ih =>
    by_cases hb : b = (0x2F : Byte)
    · simp [List.takeWhile_cons, hb]
    · simp [List.takeWhile_cons, hb, ih]
/-- The verdict of `IsValidURL` in closed form; no slice of it is out of range. -/
theorem IsValidURL_eq (s : GoString) :
    IsValidURL s = some (decide (7 < s.length ∧
      (s.take 7 = lit "http://" ∨ s.take 8 = lit "https://"))) := by
  unfold IsValidURL sliceTo
  by_cases h0 : s = []
  · subst h0; simp
  · by_cases h7 : 7 < s.length
    · have h7b : 7 ≤ s.length := by omega
      have h8 : 8 ≤ s.length := by omega
      by_cases hp : s.take 7 = lit "http://"
      · simp [h0, h7, h7b, hp]
      · simp [h0, h7, h7b, h8, hp]
    · simp [h0, h7]

theorem IsValidURL_http (h : GoString) (hne : h ≠ []) :
    IsValidURL (lit "http://" ++ h) = some true := by
  rw [IsValidURL_eq]
  have hl : (lit "http://").length = 7 := by decide
  have hpos : 0 < h.length := List.length_pos.mpr hne
  have ht : (lit "http://" ++ h).take 7 = lit "http://" := by
    rw [← hl, List.take_left]
  simp [ht, hl]
  omega

theorem IsValidURL_https (h : GoString) :
    IsValidURL (lit "https://" ++ h) = some true := by
  rw [IsValidURL_eq]
  have hl : (lit "https://").length = 8 := by decide
  have ht : (lit "https://" ++ h).take 8 = lit "https://" := by
    rw [← hl, List.take_left]
  simp [ht, hl]
  omega

theorem IsValidURL_true (s : GoString) (hs : IsValidURL s = some true) :
    (∃ h, h ≠ [] ∧ s = lit "http://" ++ h) ∨ ∃ h, s = lit "https://" ++ h := by
  rw [IsValidURL_eq] at hs
  simp only [Option.some.injEq, decide_eq_true_eq] at hs
  obtain ⟨hlen, hp | hp⟩ := hs
  · left
    refine ⟨s.drop 7, ?_, ?_⟩
    · intro hd
      have := congrArg List.length hd
      simp at this
      omega
    · rw [← hp, List.take_append_drop]
  · right
    exact ⟨s.drop 8, by rw [← hp, List.take_append_drop]⟩

theorem findSlash_le (s : GoString) : findSlash s s.length ≤ s.length := by
  rw [findSlash_eq]
  exact (List.takeWhile_sublist _).length_le

theorem ExtractDomain_http (h : GoString) (hne : h ≠ []) :
    ExtractDomain (lit "http://" ++ h)
      = some (h.takeWhile (fun b => b != 0x2F), none) := by
  have hl : (lit "http://").length = 7 := by decide
  have hpos : 0 < h.length := List.length_pos.mpr hne
  have ht : (lit "http://" ++ h).take 7 = lit "http://" := by
    rw [← hl, List.take_left]
  have hd : (lit "http://" ++ h).drop 7 = h := by
    rw [← hl, List.drop_left]
  have hlen : (lit "http://" ++ h).length = 7 + h.length := by simp [hl]
  unfold ExtractDomain
  rw [IsValidURL_http h hne]
  simp [sliceTo, sliceFrom, ht, hd, hlen, hpos, findSlash_le, take_findSlash]

theorem ExtractDomain_https (h : GoString) (hne : h ≠ []) :
    ExtractDomain (lit "https://" ++ h)
      = some (h.takeWhile (fun b => b != 0x2F), none) := by
  have hl : (lit "https://").length = 8 := by decide
  have hpos : 0 < h.length := List.length_pos.mpr hne
  have ht : (lit "https://" ++ h).take 8 = lit "https://" := by
    rw [← hl, List.take_left]
  have ht7 : (lit "https://" ++ h).take 7 ≠ lit "http://" := by
    intro hc
    have h1 : ((lit "https://" ++ h).take 7).take 5 = (lit "http://").take 5 := by rw [hc]
    rw [List.take_take, List.take_append_of_le_length (by rw [hl]; decide)] at h1
    exact absurd h1 (by decide)
  have hd : (lit "https://" ++ h).drop 8 = h := by
    rw [← hl, List.drop_left]
  have hlen : (lit "https://" ++ h).length = 8 + h.length := by simp [hl]
  have h7 : 7 ≤ 8 + h.length := by omega
  unfold ExtractDomain
  rw [IsValidURL_https h]
  simp [sliceTo, sliceFrom, ht, ht7, hd, hlen, hpos, h7, findSlash_le, take_findSlash]

theorem ExtractDomain_invalid (s : GoString) (hs : IsValidURL s = some false) :
    ExtractDomain s = some ([], some (.errorf "invalid URL: %s" [.str s])) := by
  unfold ExtractDomain
  rw [hs]
  rfl

theorem takeWhile_host (h p : GoString) (hh : (0x2F : Byte) ∉ h)
    (hp : p = [] ∨ ∃ q, p = (0x2F : Byte) :: q) :
    (h ++ p).takeWhile (fun b => b != 0x2F) = h := by
  induction h with
  | nil =>
    rcases hp with hp | ⟨q, hp⟩ <;> subst hp <;> simp [List.takeWhile_cons]
  | cons b rest ih =>
    have hb : b ≠ (0x2F : Byte) := fun hb => hh (by simp [hb])
    have hrest : (0x2F : Byte) ∉ rest := fun hm => hh (by simp [hm])
    simp [List.takeWhile_cons, hb, ih hrest]

/-- On a string that `IsValidURL` accepts, other than the bare "https://", `ExtractDomain`
returns the text after the scheme up to its first slash, and no error. -/
theorem ExtractDomain_valid (s : GoString) (hs : s ≠ lit "https://")
    (hv : IsValidURL s = some true) :
    ∃ h, h ≠ [] ∧ (s = lit "http://" ++ h ∨ s = lit "https://" ++ h) ∧
      ExtractDomain s = some (h.takeWhile (fun b => b != 0x2F), none) := by
  rcases IsValidURL_true s hv with ⟨h, hne, rfl⟩ | ⟨h, rfl⟩
  · exact ⟨h, hne, Or.inl rfl, ExtractDomain_http h hne⟩
  · have hne : h ≠ [] := by
      intro hnil
      subst hnil
      exact hs (by simp)
    exact ⟨h, hne, Or.inr rfl, ExtractDomain_https h hne⟩

/-- On every string `ExtractDomain` returns, and its error is non-nil exactly when
`IsValidURL` returns false. -/
theorem ExtractDomain_error_iff (s : GoString) :
    ∃ d e, ExtractDomain s = some (d, e) ∧ (e ≠ none ↔ IsValidURL s = some false) := by
  by_cases hv : IsValidURL s = some true
  · by_cases hs : s = lit "https://"
    · subst hs
      exact ⟨lit "https:", none, by decide, by decide⟩
    · obtain ⟨h, _, _, hd⟩ := ExtractDomain_valid s hs hv
      exact ⟨_, none, hd, by simp [hv]⟩
  · have hf : IsValidURL s = some false := by
      rw [IsValidURL_eq] at hv ⊢
      simpa using hv
    exact ⟨_, _, ExtractDomain_invalid s hf, by simp [hf]⟩

/-! ## The claims on `IsValidURL` and `ExtractDomain` -/

/-- C1, as stated, fails: the scheme-only string "http://" is non-empty and begins with
"http://", yet `IsValidURL` returns false on it. -/
theorem C1_scheme_only_http_rejected :
    lit "http://" ≠ [] ∧ lit "http://" <+: lit "http://" ∧
      IsValidURL (lit "http://") = some false := by
  refine ⟨by decide, List.prefix_refl _, by decide⟩

/-- C1, amended: for every string other than the bare "https://", `IsValidURL` returns true
exactly when the string is "http://" or "https://" followed by at least one more byte, and
returns false otherwise. -/
theorem C1_isValidURL_iff (s : GoString) (hs : s ≠ lit "https://") :
    (IsValidURL s = some true ↔
        ∃ h, h ≠ [] ∧ (s = lit "http://" ++ h ∨ s = lit "https://" ++ h)) ∧
      (IsValidURL s = some false ↔
        ¬ ∃ h, h ≠ [] ∧ (s = lit "http://" ++ h ∨ s = lit "https://" ++ h)) := by
  have key : IsValidURL s = some true ↔
      ∃ h, h ≠ [] ∧ (s = lit "http://" ++ h ∨ s = lit "https://" ++ h) := by
    constructor
    · intro hv
      rcases IsValidURL_true s hv with ⟨h, hne, rfl⟩ | ⟨h, rfl⟩
      · exact ⟨h, hne, Or.inl rfl⟩
      · refine ⟨h, ?_, Or.inr rfl⟩
        intro hnil
        subst hnil
        exact hs (by simp)
    · rintro ⟨h, hne, rfl | rfl⟩
      · exact IsValidURL_http h hne
      · exact IsValidURL_https h
  refine ⟨key, ?_⟩
  rw [← key, IsValidURL_eq]
  simp

/-- C1 amended, at the scheme-only string "http://": it is rejected. -/
theorem C1_isValidURL_iff_witness :
    lit "http://" ≠ lit "https://" ∧
      (IsValidURL (lit "http://") = some false ↔
        ¬ ∃ h, h ≠ [] ∧
          (lit "http://" = lit "http://" ++ h ∨ lit "http://" = lit "https://" ++ h)) :=
  ⟨by decide, (C1_isValidURL_iff (lit "http://") (by decide)).2⟩

/-- C2: the claim wants the scheme-only "https://" rejected, as the test of the repository
does; the code accepts it. -/
theorem C2_scheme_only_https_accepted :
    IsValidURL (lit "https://") = some true := by
  decide

/-- C3: a scheme followed by a non-empty host is valid, a string that begins with neither
scheme is not; so for "", "ftp://example.com" and "example.com". -/
theorem C3_isValidURL_hosts (h s : GoString) :
    (h ≠ [] → IsValidURL (lit "http://" ++ h) = some true ∧
        IsValidURL (lit "https://" ++ h) = some true) ∧
      (¬ lit "http://" <+: s → ¬ lit "https://" <+: s → IsValidURL s = some false) ∧
      IsValidURL (lit "") = some false ∧
      IsValidURL (lit "ftp://example.com") = some false ∧
      IsValidURL (lit "example.com") = some false := by
  refine ⟨fun hne => ⟨IsValidURL_http h hne, IsValidURL_https h⟩, ?_,
    by decide, by decide, by decide⟩
  intro h1 h2
  rw [IsValidURL_eq]
  have t7 : s.take 7 ≠ lit "http://" := fun hc =>
    h1 ⟨s.drop 7, by rw [← hc, List.take_append_drop]⟩
  have t8 : s.take 8 ≠ lit "https://" := fun hc =>
    h2 ⟨s.drop 8, by rw [← hc, List.take_append_drop]⟩
  simp [t7, t8]

/-- C3 at the host "example.com" and at the string "ftp://example.com". -/
theorem C3_isValidURL_hosts_witness :
    lit "example.com" ≠ [] ∧
      ¬ lit "http://" <+: lit "ftp://example.com" ∧
      ¬ lit "https://" <+: lit "ftp://example.com" ∧
      IsValidURL (lit "http://" ++ lit "example.com") = some true ∧
      IsValidURL (lit "https://" ++ lit "example.com") = some true ∧
      IsValidURL (lit "ftp://example.com") = some false :=
  ⟨by decide, by decide, by decide,
    ((C3_isValidURL_hosts (lit "example.com") (lit "ftp://example.com")).1 (by decide)).1,
    ((C3_isValidURL_hosts (lit "example.com") (lit "ftp://example.com")).1 (by decide)).2,
    (C3_isValidURL_hosts (lit "example.com") (lit "ftp://example.com")).2.1
      (by decide) (by decide)⟩

/-- C4: on "https://" the code accepts the URL, strips no scheme and cuts the whole string at
its first slash, returning "https:" where the claim has the empty text after the scheme. -/
theorem C4_extractDomain_scheme_only_https :
    IsValidURL (lit "https://") = some true ∧
      ExtractDomain (lit "https://") = some (lit "https:", none) := by
  decide

/-- C5: for a non-empty host without slash, followed by nothing or by a path that begins
with a slash, `ExtractDomain` returns the host, port included, and no error, under
either scheme. -/
theorem C5_extractDomain_host (h p : GoString) (hne : h ≠ []) (hh : (0x2F : Byte) ∉ h)
    (hp : p = [] ∨ ∃ q, p = (0x2F : Byte) :: q) :
    ExtractDomain (lit "http://" ++ (h ++ p)) = some (h, none) ∧
      ExtractDomain (lit "https://" ++ (h ++ p)) = some (h, none) := by
  have hne2 : h ++ p ≠ [] := by simp [hne]
  rw [ExtractDomain_http _ hne2, ExtractDomain_https _ hne2, takeWhile_host h p hh hp]
  exact ⟨rfl, rfl⟩

/-- C5 at the host "example.com:8080" and the path "/path": the port is kept. -/
theorem C5_extractDomain_host_witness :
    lit "example.com:8080" ≠ [] ∧ (0x2F : Byte) ∉ lit "example.com:8080" ∧
      (lit "/path" = [] ∨ ∃ q, lit "/path" = (0x2F : Byte) :: q) ∧
      ExtractDomain (lit "http://" ++ (lit "example.com:8080" ++ lit "/path"))
        = some (lit "example.com:8080", none) ∧
      ExtractDomain (lit "https://" ++ (lit "example.com:8080" ++ lit "/path"))
        = some (lit "example.com:8080", none) :=
  ⟨by decide, by decide, Or.inr ⟨lit "path", by decide⟩,
    C5_extractDomain_host (lit "example.com:8080") (lit "/path") (by decide) (by decide)
      (Or.inr ⟨lit "path", by decide⟩)⟩

/-! ## The claims on the configuration -/

/-- The six checks of `Validate`, in closed form. -/
theorem validate_eq_none_iff (c : SpiderConfig) :
    c.Validate = none ↔
      0 ≤ c.MaxDepth ∧ 0 ≤ c.MaxPages ∧ 0 ≤ c.Delay ∧ c.UserAgent ≠ [] ∧
        0 < c.Timeout ∧ 1 ≤ c.Concurrency := by
  unfold SpiderConfig.Validate
  split_ifs with h1 h2 h3 h4 h5 h6
  · simp; intro h; omega
  · simp; intro _ h; omega
  · simp; intro _ _ h; omega
  · simp [h4]
  · simp; intro _ _ _ _ h; omega
  · simp; intro _ _ _ _ _; omega
  · simp only [true_iff]
    exact ⟨by omega, by omega, by omega, h4, by omega, by omega⟩

/-- C6: each setter, given an argument that satisfies the rule of its field, returns no
error and changes that field alone; given any other argument it returns an error and
leaves the configuration as it was. -/
theorem C6_setters_atomic (c : SpiderConfig) (depth pages delay timeout concurrency : Int)
    (ua : GoString) :
    ((0 ≤ depth → c.SetMaxDepth depth = ({ c with MaxDepth := depth }, none)) ∧
      (¬ 0 ≤ depth → (c.SetMaxDepth depth).1 = c ∧ (c.SetMaxDepth depth).2 ≠ none)) ∧
    ((0 ≤ pages → c.SetMaxPages pages = ({ c with MaxPages := pages }, none)) ∧
      (¬ 0 ≤ pages → (c.SetMaxPages pages).1 = c ∧ (c.SetMaxPages pages).2 ≠ none)) ∧
    ((0 ≤ delay → c.SetDelay delay = ({ c with Delay := delay }, none)) ∧
      (¬ 0 ≤ delay → (c.SetDelay delay).1 = c ∧ (c.SetDelay delay).2 ≠ none)) ∧
    ((ua ≠ [] → c.SetUserAgent ua = ({ c with UserAgent := ua }, none)) ∧
      (¬ ua ≠ [] → (c.SetUserAgent ua).1 = c ∧ (c.SetUserAgent ua).2 ≠ none)) ∧
    ((0 < timeout → c.SetTimeout timeout = ({ c with Timeout := timeout }, none)) ∧
      (¬ 0 < timeout → (c.SetTimeout timeout).1 = c ∧ (c.SetTimeout timeout).2 ≠ none)) ∧
    ((1 ≤ concurrency →
        c.SetConcurrency concurrency = ({ c with Concurrency := concurrency }, none)) ∧
      (¬ 1 ≤ concurrency →
        (c.SetConcurrency concurrency).1 = c ∧ (c.SetConcurrency concurrency).2 ≠ none)) := by
  refine ⟨⟨?_, ?_⟩, ⟨?_, ?_⟩, ⟨?_, ?_⟩, ⟨?_, ?_⟩, ⟨?_, ?_⟩, ⟨?_, ?_⟩⟩
  · intro h
    have h2 : ¬ depth < 0 := by omega
    simp [SpiderConfig.SetMaxDepth, h2]
  · intro h
    have h2 : depth < 0 := by omega
    simp [SpiderConfig.SetMaxDepth, h2]
  · intro h
    have h2 : ¬ pages < 0 := by omega
    simp [SpiderConfig.SetMaxPages, h2]
  · intro h
    have h2 : pages < 0 := by omega
    simp [SpiderConfig.SetMaxPages, h2]
  · intro h
    have h2 : ¬ delay < 0 := by omega
    simp [SpiderConfig.SetDelay, h2]
  · intro h
    have h2 : delay < 0 := by omega
    simp [SpiderConfig.SetDelay, h2]
  · intro h
    simp [SpiderConfig.SetUserAgent, h]
  · intro h
    have h2 : ua = [] := not_not.mp h
    simp [SpiderConfig.SetUserAgent, h2]
  · intro h
    have h2 : ¬ timeout ≤ 0 := by omega
    simp [SpiderConfig.SetTimeout, h2]
  · intro h
    have h2 : timeout ≤ 0 := by omega
    simp [SpiderConfig.SetTimeout, h2]
  · intro h
    have h2 : ¬ concurrency < 1 := by omega
    simp [SpiderConfig.SetConcurrency, h2]
  · intro h
    have h2 : concurrency < 1 := by omega
    simp [SpiderConfig.SetConcurrency, h2]

/-- C6 on the default configuration: the accepted calls `SetMaxDepth(5)`, `SetMaxPages(0)`,
`SetDelay(0)`, `SetUserAgent("bot")`, `SetTimeout(1)`, `SetConcurrency(1)`, and the rejected
calls `SetMaxDepth(-1)`, `SetMaxPages(-1)`, `SetDelay(-1)`, `SetUserAgent("")`,
`SetTimeout(0)`, `SetConcurrency(0)`. -/
theorem C6_setters_atomic_witness :
    (NewSpiderConfig.SetMaxDepth 5 = ({ NewSpiderConfig with MaxDepth := 5 }, none) ∧
      NewSpiderConfig.SetMaxPages 0 = ({ NewSpiderConfig with MaxPages := 0 }, none) ∧
      NewSpiderConfig.SetDelay 0 = ({ NewSpiderConfig with Delay := 0 }, none) ∧
      NewSpiderConfig.SetUserAgent (lit "bot")
        = ({ NewSpiderConfig with UserAgent := lit "bot" }, none) ∧
      NewSpiderConfig.SetTimeout 1 = ({ NewSpiderConfig with Timeout := 1 }, none) ∧
      NewSpiderConfig.SetConcurrency 1 = ({ NewSpiderConfig with Concurrency := 1 }, none)) ∧
    (((NewSpiderConfig.SetMaxDepth (-1)).1 = NewSpiderConfig ∧
        (NewSpiderConfig.SetMaxDepth (-1)).2 ≠ none) ∧
      ((NewSpiderConfig.SetMaxPages (-1)).1 = NewSpiderConfig ∧
        (NewSpiderConfig.SetMaxPages (-1)).2 ≠ none) ∧
      ((NewSpiderConfig.SetDelay (-1)).1 = NewSpiderConfig ∧
        (NewSpiderConfig.SetDelay (-1)).2 ≠ none) ∧
      ((NewSpiderConfig.SetUserAgent (lit "")).1 = NewSpiderConfig ∧
        (NewSpiderConfig.SetUserAgent (lit "")).2 ≠ none) ∧
      ((NewSpiderConfig.SetTimeout 0).1 = NewSpiderConfig ∧
        (NewSpiderConfig.SetTimeout 0).2 ≠ none) ∧
      ((NewSpiderConfig.SetConcurrency 0).1 = NewSpiderConfig ∧
        (NewSpiderConfig.SetConcurrency 0).2 ≠ none)) :=
  have ok := C6_setters_atomic NewSpiderConfig 5 0 0 1 1 (lit "bot")
  have bad := C6_setters_atomic NewSpiderConfig (-1) (-1) (-1) 0 0 (lit "")
  ⟨⟨ok.1.1 (by decide), ok.2.1.1 (by decide), ok.2.2.1.1 (by decide),
      ok.2.2.2.1.1 (by decide), ok.2.2.2.2.1.1 (by decide), ok.2.2.2.2.2.1 (by decide)⟩,
    ⟨bad.1.2 (by decide), bad.2.1.2 (by decide), bad.2.2.1.2 (by decide),
      bad.2.2.2.1.2 (by decide), bad.2.2.2.2.1.2 (by decide), bad.2.2.2.2.2.2 (by decide)⟩⟩

/-- C7: `Validate` returns no error exactly when the six field rules hold, whatever way the
fields were written; so a configuration with `MaxDepth = -1`, `MaxPages = -1`, a negative
`Delay`, an empty `UserAgent`, `Timeout = 0` or `Concurrency = 0` fails, whatever its
other fields hold. -/
theorem C7_validate_iff (c : SpiderConfig) (d : Int) :
    (c.Validate = none ↔
        0 ≤ c.MaxDepth ∧ 0 ≤ c.MaxPages ∧ 0 ≤ c.Delay ∧ c.UserAgent ≠ [] ∧
          0 < c.Timeout ∧ 1 ≤ c.Concurrency) ∧
      ({ c with MaxDepth := -1 } : SpiderConfig).Validate ≠ none ∧
      ({ c with MaxPages := -1 } : SpiderConfig).Validate ≠ none ∧
      (d < 0 → ({ c with Delay := d } : SpiderConfig).Validate ≠ none) ∧
      ({ c with UserAgent := lit "" } : SpiderConfig).Validate ≠ none ∧
      ({ c with Timeout := 0 } : SpiderConfig).Validate ≠ none ∧
      ({ c with Concurrency := 0 } : SpiderConfig).Validate ≠ none := by
  refine ⟨validate_eq_none_iff c, ?_, ?_, ?_, ?_, ?_, ?_⟩
  · rw [Ne, validate_eq_none_iff]; simp
  · rw [Ne, validate_eq_none_iff]; simp
  · intro hd
    rw [Ne, validate_eq_none_iff]
    simp only [not_and]
    intro _ _ h
    omega
  · rw [Ne, validate_eq_none_iff]
    have : lit "" = [] := rfl
    simp [this]
  · rw [Ne, validate_eq_none_iff]; simp
  · rw [Ne, validate_eq_none_iff]; simp

/-- C7 on the default configuration with its delay set to minus one second. -/
theorem C7_validate_iff_witness :
    -time.Second < 0 ∧
      ({ NewSpiderConfig with Delay := -time.Second } : SpiderConfig).Validate ≠ none :=
  ⟨by decide, (C7_validate_iff NewSpiderConfig (-time.Second)).2.2.2.1 (by decide)⟩

/-- One setter call keeps a valid configuration valid, accepted or not. -/
theorem run_validate (c : SpiderConfig) (call : SetterCall) (hc : c.Validate = none) :
    (call.run c).1.Validate = none := by
  rw [validate_eq_none_iff] at hc ⊢
  obtain ⟨h1, h2, h3, h4, h5, h6⟩ := hc
  cases call with
  | setMaxDepth v =>
    simp only [SetterCall.run, SpiderConfig.SetMaxDepth]
    split_ifs with h
    · exact ⟨h1, h2, h3, h4, h5, h6⟩
    · exact ⟨by simpa using h, h2, h3, h4, h5, h6⟩
  | setMaxPages v =>
    simp only [SetterCall.run, SpiderConfig.SetMaxPages]
    split_ifs with h
    · exact ⟨h1, h2, h3, h4, h5, h6⟩
    · exact ⟨h1, by simpa using h, h3, h4, h5, h6⟩
  | setDelay v =>
    simp only [SetterCall.run, SpiderConfig.SetDelay]
    split_ifs with h
    · exact ⟨h1, h2, h3, h4, h5, h6⟩
    · exact ⟨h1, h2, by simpa using h, h4, h5, h6⟩
  | setUserAgent v =>
    simp only [SetterCall.run, SpiderConfig.SetUserAgent]
    split_ifs with h
    · exact ⟨h1, h2, h3, h4, h5, h6⟩
    · exact ⟨h1, h2, h3, h, h5, h6⟩
  | setTimeout v =>
    simp only [SetterCall.run, SpiderConfig.SetTimeout]
    split_ifs with h
    · exact ⟨h1, h2, h3, h4, h5, h6⟩
    · exact ⟨h1, h2, h3, h4, by simpa using h, h6⟩
  | setConcurrency v =>
    simp only [SetterCall.run, SpiderConfig.SetConcurrency]
    split_ifs with h
    · exact ⟨h1, h2, h3, h4, h5, h6⟩
    · exact ⟨h1, h2, h3, h4, h5, by simpa using h⟩

/-- A sequence of setter calls keeps a valid configuration valid. -/
theorem runSetters_validate (calls : List SetterCall) :
    ∀ c : SpiderConfig, c.Validate = none → (runSetters c calls).Validate = none := by
  induction calls with
  | nil => intro c hc; exact hc
  | cons call rest ih =>
    intro c hc
    exact ih _ (run_validate c call hc)

/-- C8: a setter call on a configuration that passes `Validate` gives, accepted or
rejected, a configuration that passes `Validate`; and the default configuration passes
`Validate` after any finite sequence of setter calls. -/
theorem C8_validity_invariant (c : SpiderConfig) (call : SetterCall)
    (calls : List SetterCall) :
    (c.Validate = none → (call.run c).1.Validate = none) ∧
      (runSetters NewSpiderConfig calls).Validate = none :=
  ⟨run_validate c call, runSetters_validate calls NewSpiderConfig (by decide)⟩

/-- C8 on the default configuration, with the rejected call `SetTimeout(0)` and with the
sequence `SetMaxPages(2)`, `SetTimeout(0)`, `SetUserAgent("")`, `SetConcurrency(8)`. -/
theorem C8_validity_invariant_witness :
    NewSpiderConfig.Validate = none ∧
      ((SetterCall.setTimeout 0).run NewSpiderConfig).1.Validate = none ∧
      (runSetters NewSpiderConfig
        [.setMaxPages 2, .setTimeout 0, .setUserAgent (lit ""), .setConcurrency 8]).Validate
          = none :=
  have w := C8_validity_invariant NewSpiderConfig (.setTimeout 0)
    [.setMaxPages 2, .setTimeout 0, .setUserAgent (lit ""), .setConcurrency 8]
  ⟨by decide, w.1 (by decide), w.2⟩

/-! ## The claims on the spider -/

/-- C9: `NewSpider` returns an error exactly when the configuration is nil or fails
`Validate`, and then the spider is nil; on a configuration that passes `Validate` it returns
no error and a spider holding that configuration, a client whose timeout is the `Timeout` of
the configuration, and the logger made by `log.New`. -/
theorem C9_newSpider (config : Option SpiderConfig) (c : SpiderConfig) :
    ((NewSpider config).2 ≠ none ↔
        (config = none ∨ ∃ cfg, config = some cfg ∧ cfg.Validate ≠ none)) ∧
      ((NewSpider config).2 ≠ none → (NewSpider config).1 = none) ∧
      (c.Validate = none →
        (NewSpider (some c)).2 = none ∧
          ∃ s, (NewSpider (some c)).1 = some s ∧ s.config = c ∧
            s.client.Timeout = c.Timeout ∧
            s.logger = { out := "os.Stdout", tag := "[SPIDER] ", flag := log.LstdFlags }) := by
  refine ⟨?_, ?_, ?_⟩
  · cases config with
    | none => simp [NewSpider]
    | some cfg =>
      cases hv : cfg.Validate with
      | none => simp [NewSpider, hv]
      | some err => simp [NewSpider, hv]
  · cases config with
    | none => simp [NewSpider]
    | some cfg =>
      cases hv : cfg.Validate with
      | none => simp [NewSpider, hv]
      | some err => simp [NewSpider, hv]
  · intro hv
    simp [NewSpider, hv]

/-- C9 at the nil configuration, at the default configuration with `MaxDepth = -1`, and at
the default configuration. -/
theorem C9_newSpider_witness :
    (NewSpider none).2 ≠ none ∧ (NewSpider none).1 = none ∧
      (NewSpider (some { NewSpiderConfig with MaxDepth := -1 })).2 ≠ none ∧
      (NewSpider (some { NewSpiderConfig with MaxDepth := -1 })).1 = none ∧
      NewSpiderConfig.Validate = none ∧
      (NewSpider (some NewSpiderConfig)).2 = none ∧
      ∃ s, (NewSpider (some NewSpiderConfig)).1 = some s ∧ s.config = NewSpiderConfig ∧
        s.client.Timeout = NewSpiderConfig.Timeout ∧
        s.logger = { out := "os.Stdout", tag := "[SPIDER] ", flag := log.LstdFlags } :=
  have a := C9_newSpider none NewSpiderConfig
  have b := C9_newSpider (some { NewSpiderConfig with MaxDepth := -1 }) NewSpiderConfig
  have ha : (NewSpider none).2 ≠ none := a.1.2 (Or.inl rfl)
  have hb : (NewSpider (some { NewSpiderConfig with MaxDepth := -1 })).2 ≠ none :=
    b.1.2 (Or.inr ⟨_, rfl, by decide⟩)
  ⟨ha, a.2.1 ha, hb, b.2.1 hb, by decide, (a.2.2 (by decide)).1, (a.2.2 (by decide)).2⟩

/-- C10: whatever the spider and whatever each fetch returns, `Crawl` returns an error
exactly when the seed URL is empty; with the empty seed it has no effect at all, so it fetches
nothing; with a non-empty seed it returns no error, also when every fetch fails. -/
theorem C10_crawl_error_iff_empty_seed (s : Spider) (url : GoString)
    (net : Nat → FetchResult) (err : GoError) :
    ((s.Crawl url net).2 ≠ none ↔ url = []) ∧
      (url = [] → (s.Crawl url net).1 = [] ∧ ∀ u, Event.get u ∉ (s.Crawl url net).1) ∧
      (url ≠ [] → (s.Crawl url net).2 = none ∧
        (s.Crawl url (fun _ => FetchResult.failure err)).2 = none) := by
  refine ⟨?_, ?_, ?_⟩
  · by_cases h : url = []
    · simp [Spider.Crawl, h]
    · simp [Spider.Crawl, h]
  · intro h
    simp [Spider.Crawl, h]
  · intro h
    simp [Spider.Crawl, h]

/-- C10 on the spider of the test (default configuration with `MaxPages = 2`), where every
fetch fails: the seed "" and the seed "https://example.com". -/
theorem C10_crawl_error_iff_empty_seed_witness :
    lit "" = [] ∧ lit "https://example.com" ≠ [] ∧
      ((Spider.mk { NewSpiderConfig with MaxPages := 2 } ⟨30 * time.Second⟩
          ⟨"os.Stdout", "[SPIDER] ", log.LstdFlags⟩).Crawl (lit "")
        (fun _ => FetchResult.failure (.external "no such host"))).1 = [] ∧
      ((Spider.mk { NewSpiderConfig with MaxPages := 2 } ⟨30 * time.Second⟩
          ⟨"os.Stdout", "[SPIDER] ", log.LstdFlags⟩).Crawl (lit "https://example.com")
        (fun _ => FetchResult.failure (.external "no such host"))).2 = none :=
  ⟨by decide, by decide,
    ((C10_crawl_error_iff_empty_seed _ (lit "") _ (.external "no such host")).2.1
      (by decide)).1,
    ((C10_crawl_error_iff_empty_seed _ (lit "https://example.com") _
      (.external "no such host")).2.2 (by decide)).1⟩

/-- The loop of `Crawl` from counter `i` with `n` pages left: it adds the events of the
iterations `i`, ..., `i + n - 1`, one after the other. -/
theorem crawlLoop_eq (s : Spider) (url : GoString) (net : Nat → FetchResult) :
    ∀ (n i : Nat) (t : List Event), s.config.MaxPages = (i : Int) + (n : Int) →
      s.crawlLoop url net (i : Int) t
        = t ++ (List.range' i n).flatMap (s.crawlPage url net) := by
  intro n
  induction n with
  | zero =>
    intro i t h
    rw [Spider.crawlLoop]
    have hlt : ¬ ((i : Int) < s.config.MaxPages) := by omega
    simp [hlt]
  | succ n ih =>
    intro i t h
    rw [Spider.crawlLoop]
    have hlt : (i : Int) < s.config.MaxPages := by omega
    have hnext : s.config.MaxPages = ((i + 1 : Nat) : Int) + (n : Int) := by
      push_cast
      omega
    have hcast : ((i : Int) + 1) = ((i + 1 : Nat) : Int) := by push_cast; rfl
    simp only [hlt, if_true, Int.toNat_ofNat, hcast]
    cases hnet : net i with
    | failure err =>
      simp only [ih (i + 1) _ hnext, List.range'_succ, List.flatMap_cons,
        Spider.crawlPage, hnet]
      simp
    | response =>
      simp only [ih (i + 1) _ hnext, List.range'_succ, List.flatMap_cons,
        Spider.crawlPage, hnet]
      simp

/-- The events of a successful `Crawl`, one block per page. -/
theorem Crawl_trace (s : Spider) (url : GoString) (net : Nat → FetchResult) (N : Nat)
    (hurl : url ≠ []) (hN : s.config.MaxPages = (N : Int)) :
    s.Crawl url net
      = (Event.printf "Starting crawl from: %s" [.str url]
          :: (List.range N).flatMap (s.crawlPage url net)
          ++ [Event.printf "Crawl completed" []], none) := by
  have h := crawlLoop_eq s url net N 0 [Event.printf "Starting crawl from: %s" [.str url]]
    (by simpa using hN)
  simp only [Nat.cast_zero] at h
  simp [Spider.Crawl, hurl, h, List.range_eq_range']

/-- When each block has exactly one occurrence of `x`, the blocks of a list have as many as
the list is long. -/
theorem count_flatMap_one {α β : Type} [DecidableEq β] (x : β) (f : α → List β)
    (l : List α) (h : ∀ k ∈ l, (f k).count x = 1) :
    (l.flatMap f).count x = l.length := by
  induction l with
  | nil => rfl
  | cons a rest ih =>
    have ha : (f a).count x = 1 := h a (by simp)
    have hrest : ∀ k ∈ rest, (f k).count x = 1 := fun k hk => h k (by simp [hk])
    simp [List.flatMap_cons, List.count_append, ha, ih hrest]
    omega

theorem crawlPage_count_get (s : Spider) (url : GoString) (net : Nat → FetchResult)
    (k : Nat) : (s.crawlPage url net k).count (Event.get url) = 1 := by
  unfold Spider.crawlPage
  cases net k <;> simp [List.count_cons]

theorem crawlPage_count_after (s : Spider) (url : GoString) (net : Nat → FetchResult)
    (k : Nat) : (s.crawlPage url net k).count (Event.after s.config.Delay) = 1 := by
  unfold Spider.crawlPage
  cases net k <;> simp [List.count_cons]

theorem crawlPage_mem (s : Spider) (url : GoString) (net : Nat → FetchResult) (k : Nat) :
    (∀ u, Event.get u ∈ s.crawlPage url net k → u = url) ∧
      (∀ d, Event.after d ∈ s.crawlPage url net k → d = s.config.Delay) := by
  unfold Spider.crawlPage
  cases net k <;> simp

/-- C11: with a non-empty seed and `MaxPages = N`, whatever the fetches return, the events
of `Crawl` are the opening line, then N blocks of one wait of `Delay`, one log line, one
fetch of the seed and the lines after it, then the closing line.  So there are exactly N
fetches, all of the seed, exactly N waits, all of `Delay`, a failed fetch is logged, and no
error is returned. -/
theorem C11_crawl_fetches (s : Spider) (url : GoString) (net : Nat → FetchResult) (N : Nat)
    (hurl : url ≠ []) (hN : s.config.MaxPages = (N : Int)) :
    (s.Crawl url net).1
        = Event.printf "Starting crawl from: %s" [.str url]
          :: (List.range N).flatMap (fun k =>
              [Event.after s.config.Delay,
                Event.printf "Crawling page %d/%d" [.int ((k : Int) + 1), .int (N : Int)],
                Event.get url] ++
              match net k with
              | .failure err => [Event.printfErr "Error fetching %s: %v" [.str url] err]
              | .response =>
                [Event.closeBody,
                  Event.printf "Successfully crawled page %d" [.int ((k : Int) + 1)]])
          ++ [Event.printf "Crawl completed" []] ∧
      (s.Crawl url net).1.count (Event.get url) = N ∧
      (∀ u, Event.get u ∈ (s.Crawl url net).1 → u = url) ∧
      (s.Crawl url net).1.count (Event.after s.config.Delay) = N ∧
      (∀ d, Event.after d ∈ (s.Crawl url net).1 → d = s.config.Delay) ∧
      (∀ k err, k < N → net k = FetchResult.failure err →
        Event.printfErr "Error fetching %s: %v" [.str url] err ∈ (s.Crawl url net).1) ∧
      (s.Crawl url net).2 = none := by
  rw [Crawl_trace s url net N hurl hN]
  refine ⟨?_, ?_, ?_, ?_, ?_, ?_, rfl⟩
  · have hpage : s.crawlPage url net = fun (k : Nat) =>
        [Event.after s.config.Delay,
          Event.printf "Crawling page %d/%d" [.int ((k : Int) + 1), .int (N : Int)],
          Event.get url] ++
        match net k with
        | .failure err => [Event.printfErr "Error fetching %s: %v" [.str url] err]
        | .response =>
          [Event.closeBody,
            Event.printf "Successfully crawled page %d" [.int ((k : Int) + 1)]] := by
      funext k
      simp only [Spider.crawlPage, hN]
    rw [hpage]
  · simp [List.count_cons, List.count_append,
      count_flatMap_one _ _ _ (fun k _ => crawlPage_count_get s url net k)]
  · intro u hu
    simp at hu
    obtain ⟨k, _, hk⟩ := hu
    exact (crawlPage_mem s url net k).1 u hk
  · simp [List.count_cons, List.count_append,
      count_flatMap_one _ _ _ (fun k _ => crawlPage_count_after s url net k)]
  · intro d hd
    simp at hd
    obtain ⟨k, _, hk⟩ := hd
    exact (crawlPage_mem s url net k).2 d hk
  · intro k err hk hnet
    simp only [List.mem_cons, List.mem_append, List.mem_flatMap, List.mem_range]
    refine Or.inl (Or.inr ⟨k, hk, ?_⟩)
    simp [Spider.crawlPage, hnet]

/-- C11 on the spider of the test (default configuration with `MaxPages = 2`) and the seed
"https://example.com", every fetch failing: two fetches and two waits. -/
theorem C11_crawl_fetches_witness :
    lit "https://example.com" ≠ [] ∧
      ({ NewSpiderConfig with MaxPages := 2 } : SpiderConfig).MaxPages = ((2 : Nat) : Int) ∧
      ((Spider.mk { NewSpiderConfig with MaxPages := 2 } ⟨30 * time.Second⟩
          ⟨"os.Stdout", "[SPIDER] ", log.LstdFlags⟩).Crawl (lit "https://example.com")
        (fun _ => FetchResult.failure (.external "no such host"))).1.count
          (Event.get (lit "https://example.com")) = 2 ∧
      ((Spider.mk { NewSpiderConfig with MaxPages := 2 } ⟨30 * time.Second⟩
          ⟨"os.Stdout", "[SPIDER] ", log.LstdFlags⟩).Crawl (lit "https://example.com")
        (fun _ => FetchResult.failure (.external "no such host"))).1.count
          (Event.after time.Second) = 2 :=
  have w := C11_crawl_fetches
    (Spider.mk { NewSpiderConfig with MaxPages := 2 } ⟨30 * time.Second⟩
      ⟨"os.Stdout", "[SPIDER] ", log.LstdFlags⟩)
    (lit "https://example.com") (fun _ => FetchResult.failure (.external "no such host")) 2
    (by decide) rfl
  ⟨by decide, rfl, w.2.1, w.2.2.2.1⟩

/-- The pointer form of `NewSpider` agrees with `NewSpider` on the configuration that lies at
the pointer: same error, and the new spider, followed through its pointer, is the spider of
`NewSpider`. -/
theorem NewSpiderRef_load (m : Store) (config : Option ConfigPtr) :
    (NewSpiderRef m config).2 = (NewSpider (config.map m)).2 ∧
      (NewSpiderRef m config).1.map (fun r => r.load m) = (NewSpider (config.map m)).1 := by
  cases config with
  | none => exact ⟨rfl, rfl⟩
  | some p =>
    cases hv : (m p).Validate with
    | none => simp [NewSpiderRef, NewSpider, hv, SpiderRef.load]
    | some err => simp [NewSpiderRef, NewSpider, hv]

/-- The spider that `NewSpider` builds holds the pointer it was given. -/
theorem NewSpiderRef_config (m : Store) (p : ConfigPtr) (r : SpiderRef)
    (h : NewSpiderRef m (some p) = (some r, none)) : r.config = p := by
  unfold NewSpiderRef at h
  cases hv : (m p).Validate with
  | none =>
    simp only [hv, Prod.mk.injEq, Option.some.injEq, and_true] at h
    rw [← h]
  | some err => simp [hv] at h

/-- The loop of `CrawlWithCallback` from counter `i` with `n` pages left, under a callback
that leaves `MaxPages` of the spider as it finds it: within `fuel > n` tests the loop ends,
having applied the callback for the pages `i + 1`, ..., `i + n` in this order. -/
theorem callbackLoop_steady {σ : Type} (r : SpiderRef) (url : GoString)
    (cb : GoString → Option GoError → Store × σ → Store × σ)
    (hcb : ∀ u e w, ((cb u e w).1 r.config).MaxPages = (w.1 r.config).MaxPages) :
    ∀ (n i fuel : Nat) (t : List Event) (m : Store) (st : σ),
      (m r.config).MaxPages = (i : Int) + (n : Int) → n < fuel →
      ∃ t2, r.callbackLoop url cb fuel (i : Int) t m st
        = some (t2,
            ((List.range' i n).foldl
              (fun w (k : Nat) => cb (pageURL url ((k : Int) + 1)) none w) (m, st)).1,
            ((List.range' i n).foldl
              (fun w (k : Nat) => cb (pageURL url ((k : Int) + 1)) none w) (m, st)).2) := by
  intro n
  induction n with
  | zero =>
    intro i fuel t m st h hfuel
    cases fuel with
    | zero => exact absurd hfuel (by omega)
    | succ f =>
      have hlt : ¬ ((i : Int) < (m r.config).MaxPages) := by omega
      exact ⟨t, by simp [SpiderRef.callbackLoop, hlt]⟩
  | succ n ih =>
    intro i fuel t m st h hfuel
    cases fuel with
    | zero => exact absurd hfuel (by omega)
    | succ f =>
      have hlt : (i : Int) < (m r.config).MaxPages := by omega
      have hcast : ((i : Int) + 1) = ((i + 1 : Nat) : Int) := by push_cast; rfl
      have hnext : ((cb (pageURL url ((i : Int) + 1)) none (m, st)).1 r.config).MaxPages
          = ((i + 1 : Nat) : Int) + (n : Int) := by
        rw [hcb]
        push_cast
        omega
      obtain ⟨t2, ht2⟩ := ih (i + 1) f (t ++ [Event.after (m r.config).Delay])
        (cb (pageURL url ((i : Int) + 1)) none (m, st)).1
        (cb (pageURL url ((i : Int) + 1)) none (m, st)).2 hnext (by omega)
      refine ⟨t2, ?_⟩
      simp only [SpiderRef.callbackLoop, hlt, if_true]
      rw [hcast] at ht2 ⊢
      rw [ht2]
      simp [List.range'_succ]

/-- C12, as stated, fails: the callback is code of the caller, which holds the pointer to
the configuration of the spider.  With `MaxPages = 3`, a callback that sets `MaxPages` to 1
(and records its arguments) is called once, for "https://example.com/page1", and the call
returns no error. -/
theorem C12_callback_shortens_crawl :
    lit "https://example.com" ≠ [] ∧
      ({ NewSpiderConfig with MaxPages := 3 } : SpiderConfig).MaxPages = 3 ∧
      ((SpiderRef.mk 0 ⟨30 * time.Second⟩
          ⟨"os.Stdout", "[SPIDER] ", log.LstdFlags⟩).CrawlWithCallback 10
        (lit "https://example.com")
        (some (fun u e (w : Store × List (GoString × Option GoError)) =>
          (w.1.write 0 { w.1 0 with MaxPages := 1 }, w.2 ++ [(u, e)])))
        (fun _ => { NewSpiderConfig with MaxPages := 3 }) []).map
          (fun x => (x.2.2.1, x.2.2.2))
        = some ([(lit "https://example.com/page1", none)], none) := by
  decide

/-- C12, amended: with a non-empty URL, `MaxPages = N` and a non-nil callback that leaves
`MaxPages` of the spider as it finds it, `CrawlWithCallback` ends, returns no error and has
applied the callback N times, for the pages 1, 2, ..., N in this order, each time to the
URL followed by "/page" and the page number in decimal and to a nil error; a callback that
records its arguments ends with exactly this list of N calls. -/
theorem C12_callback_calls {σ : Type} (r : SpiderRef) (url : GoString)
    (cb : GoString → Option GoError → Store × σ → Store × σ) (m : Store) (st : σ)
    (N fuel : Nat) (hurl : url ≠ []) (hN : (m r.config).MaxPages = (N : Int))
    (hcb : ∀ u e w, ((cb u e w).1 r.config).MaxPages = (w.1 r.config).MaxPages)
    (hfuel : N < fuel) :
    (∃ t, r.CrawlWithCallback fuel url (some cb) m st
        = some (t,
            ((List.range N).foldl
              (fun w (k : Nat) => cb (url ++ lit "/page" ++ formatInt ((k : Int) + 1)) none w)
              (m, st)).1,
            ((List.range N).foldl
              (fun w (k : Nat) => cb (url ++ lit "/page" ++ formatInt ((k : Int) + 1)) none w)
              (m, st)).2,
            none)) ∧
      (∃ t, r.CrawlWithCallback fuel url
          (some (fun u e (w : Store × List (GoString × Option GoError)) =>
            (w.1, w.2 ++ [(u, e)])))
          m []
        = some (t, m,
            (List.range N).map
              (fun (k : Nat) => (url ++ lit "/page" ++ formatInt ((k : Int) + 1), none)),
            none)) ∧
      formatInt 1 = lit "1" ∧ formatInt 10 = lit "10" ∧ formatInt 100 = lit "100" := by
  refine ⟨?_, ?_, by decide, by decide, by decide⟩
  · obtain ⟨t, ht⟩ := callbackLoop_steady r url cb hcb N 0 fuel
      [Event.printf "Starting crawl with callback from: %s" [.str url]] m st
      (by simpa using hN) hfuel
    simp only [Nat.cast_zero] at ht
    refine ⟨t, ?_⟩
    simp only [SpiderRef.CrawlWithCallback, hurl, if_false, ht, List.range_eq_range']
    rfl
  · obtain ⟨t, ht⟩ := callbackLoop_steady r url
      (fun u e (w : Store × List (GoString × Option GoError)) => (w.1, w.2 ++ [(u, e)]))
      (fun _ _ _ => rfl) N 0 fuel
      [Event.printf "Starting crawl with callback from: %s" [.str url]] m []
      (by simpa using hN) hfuel
    simp only [Nat.cast_zero] at ht
    refine ⟨t, ?_⟩
    simp only [SpiderRef.CrawlWithCallback, hurl, if_false, ht, List.range_eq_range']
    have key : ∀ (l : List Nat) (acc : List (GoString × Option GoError)),
        l.foldl (fun (w : Store × List (GoString × Option GoError)) (k : Nat) =>
            (w.1, w.2 ++ [(pageURL url ((k : Int) + 1), (none : Option GoError))]))
          (m, acc)
          = (m, acc ++ l.map (fun (k : Nat) => (pageURL url ((k : Int) + 1), none))) := by
      intro l
      induction l with
      | nil => intro acc; simp
      | cons a rest ih =>
        intro acc
        rw [List.foldl_cons, ih, List.map_cons, List.append_assoc]
        rfl
    rw [key (List.range' 0 N) []]
    rfl

/-- C12 amended, on the spider of the test (default configuration with `MaxPages = 2`, at
the address 0), the URL "https://example.com" and a callback that records its arguments:
two calls, for "https://example.com/page1" and then "https://example.com/page2". -/
theorem C12_callback_calls_witness :
    lit "https://example.com" ≠ [] ∧
      ({ NewSpiderConfig with MaxPages := 2 } : SpiderConfig).MaxPages = ((2 : Nat) : Int) ∧
      2 < 3 ∧
      ∃ t, (SpiderRef.mk 0 ⟨30 * time.Second⟩
          ⟨"os.Stdout", "[SPIDER] ", log.LstdFlags⟩).CrawlWithCallback 3
        (lit "https://example.com")
        (some (fun u e (w : Store × List (GoString × Option GoError)) =>
          (w.1, w.2 ++ [(u, e)])))
        (fun _ => { NewSpiderConfig with MaxPages := 2 }) []
        = some (t, (fun _ => { NewSpiderConfig with MaxPages := 2 }),
            (List.range 2).map
              (fun (k : Nat) =>
                (lit "https://example.com" ++ lit "/page" ++ formatInt ((k : Int) + 1), none)),
            none) :=
  ⟨by decide, rfl, by decide,
    (C12_callback_calls (SpiderRef.mk 0 ⟨30 * time.Second⟩
        ⟨"os.Stdout", "[SPIDER] ", log.LstdFlags⟩)
      (lit "https://example.com")
      (fun u e (w : Store × List (GoString × Option GoError)) => (w.1, w.2 ++ [(u, e)]))
      (fun _ => { NewSpiderConfig with MaxPages := 2 }) [] 2 3
      (by decide) rfl (fun _ _ _ => rfl) (by decide)).2.1⟩

/-- C13: `CrawlWithCallback` returns an error exactly when the URL is empty or the callback
is nil.  In such a call it returns at once, whatever the number of turns allowed, and
nothing has happened: no event, the store and the state of the caller are what they were,
so the callback has not been applied. -/
theorem C13_callback_errors {σ : Type} (r : SpiderRef) (fuel : Nat) (url : GoString)
    (callback : Option (GoString → Option GoError → Store × σ → Store × σ))
    (m : Store) (st : σ) :
    ((url = [] ∨ callback = none) →
        ∃ e, r.CrawlWithCallback fuel url callback m st = some ([], m, st, some e)) ∧
      (∀ t m2 st2 e, r.CrawlWithCallback fuel url callback m st = some (t, m2, st2, e) →
        (e ≠ none ↔ (url = [] ∨ callback = none)) ∧
          (e ≠ none → st2 = st ∧ m2 = m ∧ t = [])) := by
  by_cases hurl : url = []
  · refine ⟨fun _ => ⟨.errorf "URL cannot be empty" [],
      by simp [SpiderRef.CrawlWithCallback, hurl]⟩, ?_⟩
    intro t m2 st2 e h
    simp only [SpiderRef.CrawlWithCallback, hurl, if_true, Option.some.injEq,
      Prod.mk.injEq] at h
    obtain ⟨h1, h2, h3, h4⟩ := h
    subst h1 h2 h3 h4
    simp [hurl]
  · cases callback with
    | none =>
      refine ⟨fun _ => ⟨.errorf "callback cannot be nil" [],
        by simp [SpiderRef.CrawlWithCallback, hurl]⟩, ?_⟩
      intro t m2 st2 e h
      simp only [SpiderRef.CrawlWithCallback, hurl, if_false, Option.some.injEq,
        Prod.mk.injEq] at h
      obtain ⟨h1, h2, h3, h4⟩ := h
      subst h1 h2 h3 h4
      simp
    | some cb =>
      refine ⟨fun h => ?_, ?_⟩
      · rcases h with h | h
        · exact absurd h hurl
        · exact absurd h (by simp)
      · intro t m2 st2 e h
        simp only [SpiderRef.CrawlWithCallback, hurl, if_false] at h
        cases hl : r.callbackLoop url cb fuel 0
            [Event.printf "Starting crawl with callback from: %s" [.str url]] m st with
        | none => simp [hl] at h
        | some x =>
          simp only [hl, Option.some.injEq, Prod.mk.injEq] at h
          obtain ⟨_, _, _, h4⟩ := h
          subst h4
          simp [hurl]

/-- C13 on the spider of the test with a recording callback: the empty URL, and the URL
"https://example.com" with the nil callback; no call is recorded. -/
theorem C13_callback_errors_witness :
    (lit "" = [] ∨
        (some (fun u e (w : Store × List (GoString × Option GoError)) =>
          (w.1, w.2 ++ [(u, e)])) : Option (GoString → Option GoError →
            Store × List (GoString × Option GoError) →
            Store × List (GoString × Option GoError))) = none) ∧
      (∃ e, (SpiderRef.mk 0 ⟨30 * time.Second⟩
          ⟨"os.Stdout", "[SPIDER] ", log.LstdFlags⟩).CrawlWithCallback 3 (lit "")
        (some (fun u e (w : Store × List (GoString × Option GoError)) =>
          (w.1, w.2 ++ [(u, e)])))
        (fun _ => { NewSpiderConfig with MaxPages := 2 }) []
        = some ([], (fun _ => { NewSpiderConfig with MaxPages := 2 }), [], some e)) ∧
      (∃ e, (SpiderRef.mk 0 ⟨30 * time.Second⟩
          ⟨"os.Stdout", "[SPIDER] ", log.LstdFlags⟩).CrawlWithCallback 3
        (lit "https://example.com")
        (none : Option (GoString → Option GoError →
          Store × List (GoString × Option GoError) →
          Store × List (GoString × Option GoError)))
        (fun _ => { NewSpiderConfig with MaxPages := 2 }) []
        = some ([], (fun _ => { NewSpiderConfig with MaxPages := 2 }), [], some e)) :=
  ⟨Or.inl (by decide),
    (C13_callback_errors (SpiderRef.mk 0 ⟨30 * time.Second⟩
        ⟨"os.Stdout", "[SPIDER] ", log.LstdFlags⟩) 3 (lit "")
      (some (fun u e (w : Store × List (GoString × Option GoError)) =>
        (w.1, w.2 ++ [(u, e)])))
      (fun _ => { NewSpiderConfig with MaxPages := 2 }) []).1 (Or.inl (by decide)),
    (C13_callback_errors (SpiderRef.mk 0 ⟨30 * time.Second⟩
        ⟨"os.Stdout", "[SPIDER] ", log.LstdFlags⟩) 3 (lit "https://example.com")
      (none : Option (GoString → Option GoError →
        Store × List (GoString × Option GoError) →
        Store × List (GoString × Option GoError)))
      (fun _ => { NewSpiderConfig with MaxPages := 2 }) []).1 (Or.inr rfl)⟩

/-- C14: `GetStats` returns a map with exactly the keys `max_depth`, `max_pages`, `delay`,
`user_agent`, `timeout`, `concurrency`.  For the spider that `NewSpider` has built on the
pointer `p` in the store `m`, and a call of `GetStats` in any later store `m2`, the values
are the fields of the configuration that lies at `p` in `m2`, durations in their string
form, not those of the time of the construction: after the caller has called
`SetMaxPages(v)` on its pointer, the map holds `v`.  `GetStats` leaves the store as it
is. -/
theorem C14_getStats (durationString : Int → GoString) (m m2 : Store) (p : ConfigPtr)
    (r : SpiderRef) (v : Int) (hnew : NewSpiderRef m (some p) = (some r, none)) :
    ((r.GetStats durationString m2).2.map Prod.fst
        = ["max_depth", "max_pages", "delay", "user_agent", "timeout", "concurrency"]) ∧
      (r.GetStats durationString m2).2
        = [("max_depth", .int (m2 p).MaxDepth), ("max_pages", .int (m2 p).MaxPages),
            ("delay", .str (durationString (m2 p).Delay)),
            ("user_agent", .str (m2 p).UserAgent),
            ("timeout", .str (durationString (m2 p).Timeout)),
            ("concurrency", .int (m2 p).Concurrency)] ∧
      ((r.GetStats durationString m2).2.lookup "max_depth" = some (.int (m2 p).MaxDepth) ∧
        (r.GetStats durationString m2).2.lookup "max_pages" = some (.int (m2 p).MaxPages) ∧
        (r.GetStats durationString m2).2.lookup "delay"
          = some (.str (durationString (m2 p).Delay)) ∧
        (r.GetStats durationString m2).2.lookup "user_agent"
          = some (.str (m2 p).UserAgent) ∧
        (r.GetStats durationString m2).2.lookup "timeout"
          = some (.str (durationString (m2 p).Timeout)) ∧
        (r.GetStats durationString m2).2.lookup "concurrency"
          = some (.int (m2 p).Concurrency)) ∧
      (0 ≤ v →
        (r.GetStats durationString (m.write p ((m p).SetMaxPages v).1)).2.lookup "max_pages"
          = some (.int v)) ∧
      (r.GetStats durationString m2).1 = m2 := by
  have hp := NewSpiderRef_config m p r hnew
  refine ⟨rfl, by simp [SpiderRef.GetStats, hp], ⟨?_, ?_, ?_, ?_, ?_, ?_⟩, ?_, rfl⟩
  · simp [SpiderRef.GetStats, List.lookup, hp]
  · simp [SpiderRef.GetStats, List.lookup, hp]
  · simp [SpiderRef.GetStats, List.lookup, hp]
  · simp [SpiderRef.GetStats, List.lookup, hp]
  · simp [SpiderRef.GetStats, List.lookup, hp]
  · simp [SpiderRef.GetStats, List.lookup, hp]
  · intro hv
    have hneg : ¬ v < 0 := by omega
    simp [SpiderRef.GetStats, List.lookup, hp, Store.write, SpiderConfig.SetMaxPages, hneg]

/-- C14 on the spider built on the default configuration at the address 0: after the
caller's `SetMaxPages(7)`, `GetStats` reports 7 pages, where the configuration held 100 at
the construction. -/
theorem C14_getStats_witness :
    NewSpiderRef (fun _ => NewSpiderConfig) (some 0)
        = (some (SpiderRef.mk 0 ⟨30 * time.Second⟩ ⟨"os.Stdout", "[SPIDER] ", log.LstdFlags⟩),
            none) ∧
      (0 : Int) ≤ 7 ∧ NewSpiderConfig.MaxPages = 100 ∧
      ((SpiderRef.mk 0 ⟨30 * time.Second⟩ ⟨"os.Stdout", "[SPIDER] ", log.LstdFlags⟩).GetStats
          (fun _ => []) (Store.write (fun _ => NewSpiderConfig) 0
            (NewSpiderConfig.SetMaxPages 7).1)).2.lookup "max_pages"
        = some (.int 7) :=
  ⟨by decide, by decide, by decide,
    (C14_getStats (fun _ => []) (fun _ => NewSpiderConfig) (fun _ => NewSpiderConfig) 0
      (SpiderRef.mk 0 ⟨30 * time.Second⟩ ⟨"os.Stdout", "[SPIDER] ", log.LstdFlags⟩) 7
      (by decide)).2.2.2.1 (by decide)⟩

/-- C20: the configuration of `NewSpiderConfig` has `MaxDepth` 3, `MaxPages` 100, `Delay` one
second, `UserAgent` "DirectWebSpider/1.0", `Timeout` thirty seconds and `Concurrency` 5,
which are the `Default` constants, and `Validate` returns no error on it. -/
theorem C20_newSpiderConfig_defaults :
    NewSpiderConfig.MaxDepth = 3 ∧ NewSpiderConfig.MaxPages = 100 ∧
      NewSpiderConfig.Delay = 1000000000 ∧
      NewSpiderConfig.UserAgent = lit "DirectWebSpider/1.0" ∧
      NewSpiderConfig.Timeout = 30000000000 ∧ NewSpiderConfig.Concurrency = 5 ∧
      NewSpiderConfig.MaxDepth = DefaultMaxDepth ∧
      NewSpiderConfig.MaxPages = DefaultMaxPages ∧
      NewSpiderConfig.Delay = DefaultDelay ∧
      NewSpiderConfig.UserAgent = DefaultUserAgent ∧
      NewSpiderConfig.Timeout = DefaultTimeout ∧
      NewSpiderConfig.Concurrency = DefaultConcurrency ∧
      NewSpiderConfig.Validate = none := by
  decide

/-! ## The claims on URL processing -/

/-- On a URL that `IsValidURL` rejects, `ProcessURL` returns nil and the error. -/
theorem ProcessURL_invalid (now : Int) (s : GoString) (hs : IsValidURL s = some false) :
    ProcessURL now s = some (none, some (.errorf "invalid URL: %s" [.str s])) := by
  unfold ProcessURL
  rw [hs]
  rfl

/-- On a URL that `IsValidURL` accepts, `ProcessURL` returns the record with the domain of
`ExtractDomain`, and no error. -/
theorem ProcessURL_valid (now : Int) (s : GoString) (hs : IsValidURL s = some true) :
    ∃ d, ExtractDomain s = some (d, none) ∧
      ProcessURL now s
        = some (some [("url", .str s), ("domain", .str d), ("valid", .bool true),
            ("time", .int now)], none) := by
  obtain ⟨d, e, hd, he⟩ := ExtractDomain_error_iff s
  have hnone : e = none := by
    by_contra hne
    have := he.1 hne
    rw [hs] at this
    exact absurd this (by simp)
  subst hnone
  refine ⟨d, hd, ?_⟩
  unfold ProcessURL
  rw [hs, hd]
  rfl

/-- The verdict of `IsValidURL` is true or false. -/
theorem IsValidURL_cases (s : GoString) :
    IsValidURL s = some true ∨ IsValidURL s = some false := by
  rw [IsValidURL_eq]
  by_cases h : 7 < s.length ∧ (s.take 7 = lit "http://" ∨ s.take 8 = lit "https://")
  · left; simp [h]
  · right; simp only [h, decide_False]

/-- C17: `ProcessURL` returns an error, with a nil record, exactly when `IsValidURL` returns
false; on any other string it returns no error and the record whose `url` is the string,
whose `domain` is what `ExtractDomain` returns for it and whose `valid` is true. -/
theorem C17_processURL (now : Int) (s : GoString) :
    ∃ m e, ProcessURL now s = some (m, e) ∧
      ((e ≠ none ∧ m = none) ↔ IsValidURL s = some false) ∧
      (¬ IsValidURL s = some false →
        e = none ∧ ∃ d, ExtractDomain s = some (d, none) ∧
          m = some [("url", .str s), ("domain", .str d), ("valid", .bool true),
            ("time", .int now)]) := by
  rcases IsValidURL_cases s with hv | hv
  · obtain ⟨d, hd, hp⟩ := ProcessURL_valid now s hv
    refine ⟨_, _, hp, ?_, ?_⟩
    · simp [hv]
    · intro _
      exact ⟨rfl, d, hd, rfl⟩
  · refine ⟨_, _, ProcessURL_invalid now s hv, ?_, ?_⟩
    · simp [hv]
    · intro h
      exact absurd hv h

/-- C17 at "https://example.com", processed at the time 1700000000. -/
theorem C17_processURL_witness :
    ¬ IsValidURL (lit "https://example.com") = some false ∧
      ∃ m e, ProcessURL 1700000000 (lit "https://example.com") = some (m, e) ∧
        e = none ∧ ∃ d, ExtractDomain (lit "https://example.com") = some (d, none) ∧
          m = some [("url", .str (lit "https://example.com")), ("domain", .str d),
            ("valid", .bool true), ("time", .int 1700000000)] :=
  ⟨by decide,
    match C17_processURL 1700000000 (lit "https://example.com") with
    | ⟨m, e, hp, _, h⟩ => ⟨m, e, hp, h (by decide)⟩⟩

/-- The loop of `BatchProcessURLs` on URLs that are all valid: it adds one record for each
URL, in order. -/
theorem batchLoop_valid (clock : Nat → Int) (urls : List GoString) :
    ∀ (i : Nat) (results : List (Option GoMap)),
      (∀ u ∈ urls, IsValidURL u = some true) →
      ∃ rs, batchLoop clock i urls results = some (some (results ++ rs), none) ∧
        rs.length = urls.length ∧
        ∀ (j : Nat) (u : GoString), urls[j]? = some u →
          ∃ d, ExtractDomain u = some (d, none) ∧
            rs[j]? = some (some [("url", .str u), ("domain", .str d), ("valid", .bool true),
              ("time", .int (clock (i + j)))]) := by
  induction urls with
  | nil =>
    intro i results _
    exact ⟨[], by simp [batchLoop], rfl, by simp⟩
  | cons u rest ih =>
    intro i results hall
    obtain ⟨d, hd, hp⟩ := ProcessURL_valid (clock i) u (hall u (by simp))
    obtain ⟨rs, hrs, hlen, hrec⟩ := ih (i + 1)
      (results ++ [some [("url", .str u), ("domain", .str d), ("valid", .bool true),
        ("time", .int (clock i))]])
      (fun v hv => hall v (by simp [hv]))
    refine ⟨some [("url", .str u), ("domain", .str d), ("valid", .bool true),
      ("time", .int (clock i))] :: rs, ?_, by simp [hlen], ?_⟩
    · simp only [batchLoop, hp, hrs]
      simp
    · intro j v hj
      cases j with
      | zero =>
        simp only [List.getElem?_cons_zero, Option.some.injEq] at hj
        subst hj
        exact ⟨d, hd, by simp⟩
      | succ j =>
        simp only [List.getElem?_cons_succ] at hj
        obtain ⟨d2, hd2, hr2⟩ := hrec j v hj
        refine ⟨d2, hd2, ?_⟩
        simp only [List.getElem?_cons_succ, hr2]
        have : i + 1 + j = i + (j + 1) := by omega
        rw [this]

/-- The loop of `BatchProcessURLs` on valid URLs followed by a rejected one: it stops there
with nil and the error that names the index and the URL, whatever follows. -/
theorem batchLoop_invalid (clock : Nat → Int) (pre : List GoString) :
    ∀ (i : Nat) (results : List (Option GoMap)) (bad : GoString) (post : List GoString),
      (∀ u ∈ pre, IsValidURL u = some true) → IsValidURL bad = some false →
      batchLoop clock i (pre ++ bad :: post) results
        = some (none, some (.wrapf "failed to process URL %d (%s): %w"
            [.int ((i + pre.length : Nat) : Int), .str bad]
            (.errorf "invalid URL: %s" [.str bad]))) := by
  induction pre with
  | nil =>
    intro i results bad post _ hbad
    simp [batchLoop, ProcessURL_invalid (clock i) bad hbad]
  | cons u rest ih =>
    intro i results bad post hall hbad
    obtain ⟨d, _, hp⟩ := ProcessURL_valid (clock i) u (hall u (by simp))
    have hstep := ih (i + 1)
      (results ++ [some [("url", .str u), ("domain", .str d), ("valid", .bool true),
        ("time", .int (clock i))]]) bad post (fun v hv => hall v (by simp [hv])) hbad
    have hidx : i + 1 + rest.length = i + (u :: rest).length := by
      simp only [List.length_cons]
      omega
    rw [hidx] at hstep
    rw [List.cons_append]
    simp only [batchLoop, hp]
    exact hstep

/-- A list with a rejected URL splits at the first one. -/
theorem split_first_invalid (urls : List GoString)
    (h : ∃ u ∈ urls, IsValidURL u = some false) :
    ∃ pre bad post, urls = pre ++ bad :: post ∧
      (∀ u ∈ pre, IsValidURL u = some true) ∧ IsValidURL bad = some false := by
  induction urls with
  | nil => simp at h
  | cons u rest ih =>
    rcases IsValidURL_cases u with hu | hu
    · obtain ⟨v, hv, hvf⟩ := h
      have hvrest : v ∈ rest := by
        rcases List.mem_cons.mp hv with rfl | hv
        · rw [hu] at hvf
          exact absurd hvf (by simp)
        · exact hv
      obtain ⟨pre, bad, post, he, hpre, hbad⟩ := ih ⟨v, hvrest, hvf⟩
      refine ⟨u :: pre, bad, post, by simp [he], ?_, hbad⟩
      intro w hw
      rcases List.mem_cons.mp hw with rfl | hw
      · exact hu
      · exact hpre w hw
    · exact ⟨[], u, rest, rfl, by simp, hu⟩

/-- On a non-empty list of valid URLs `BatchProcessURLs` returns the records of its loop. -/
theorem batch_all_valid (clock : Nat → Int) (urls : List GoString) (hne : urls ≠ [])
    (hall : ∀ u ∈ urls, IsValidURL u = some true) :
    ∃ rs, BatchProcessURLs clock urls = some (some rs, none) ∧
      rs.length = urls.length ∧
      ∀ (j : Nat) (u : GoString), urls[j]? = some u →
        ∃ d, ExtractDomain u = some (d, none) ∧
          rs[j]? = some (some [("url", .str u), ("domain", .str d), ("valid", .bool true),
            ("time", .int (clock j))]) := by
  obtain ⟨rs, hrs, hlen, hrec⟩ := batchLoop_valid clock urls 0 [] hall
  have hlen0 : ¬ urls.length = 0 := fun h => hne (List.length_eq_zero.mp h)
  refine ⟨rs, ?_, hlen, ?_⟩
  · simpa [BatchProcessURLs, hlen0] using hrs
  · intro j u hj
    simpa using hrec j u hj

/-- C18: on a non-empty list of URLs that `IsValidURL` all accepts, `BatchProcessURLs`
returns no error and as many records as URLs, in the order of the URLs: the record of index
`j` has the URL of index `j` as `url`, what `ExtractDomain` returns for it as `domain`, and
`valid` true. -/
theorem C18_batch_valid (clock : Nat → Int) (urls : List GoString) (hne : urls ≠ [])
    (hall : ∀ u ∈ urls, IsValidURL u = some true) :
    ∃ rs, BatchProcessURLs clock urls = some (some rs, none) ∧
      rs.length = urls.length ∧
      ∀ (j : Nat) (u : GoString), urls[j]? = some u →
        ∃ d, ExtractDomain u = some (d, none) ∧
          rs[j]? = some (some [("url", .str u), ("domain", .str d), ("valid", .bool true),
            ("time", .int (clock j))]) :=
  batch_all_valid clock urls hne hall

/-- C18 on the list "https://a.com", "https://b.com": two records. -/
theorem C18_batch_valid_witness :
    [lit "https://a.com", lit "https://b.com"] ≠ [] ∧
      (∀ u ∈ [lit "https://a.com", lit "https://b.com"], IsValidURL u = some true) ∧
      ∃ rs, BatchProcessURLs (fun _ => 1700000000) [lit "https://a.com", lit "https://b.com"]
          = some (some rs, none) ∧
        rs.length = [lit "https://a.com", lit "https://b.com"].length :=
  ⟨by decide, by decide,
    match C18_batch_valid (fun _ => 1700000000) [lit "https://a.com", lit "https://b.com"]
      (by decide) (by decide) with
    | ⟨rs, h, hlen, _⟩ => ⟨rs, h, hlen⟩⟩

/-- C19: `BatchProcessURLs` returns an error exactly when the list is empty or holds a URL
that `IsValidURL` rejects, and then it returns the nil slice; when the URLs before a
rejected one are all accepted, the error names the index of that URL and the URL, and the
result is the same whatever URLs follow it. -/
theorem C19_batch_errors (clock : Nat → Int) (urls pre post : List GoString)
    (bad : GoString) :
    (∃ r e, BatchProcessURLs clock urls = some (r, e) ∧
        (e ≠ none ↔ (urls = [] ∨ ∃ u ∈ urls, IsValidURL u = some false)) ∧
        (e ≠ none → r = none)) ∧
      ((∀ u ∈ pre, IsValidURL u = some true) → IsValidURL bad = some false →
        BatchProcessURLs clock (pre ++ bad :: post)
          = some (none, some (.wrapf "failed to process URL %d (%s): %w"
              [.int (pre.length : Int), .str bad]
              (.errorf "invalid URL: %s" [.str bad])))) := by
  have hsecond : ∀ (p q : List GoString) (b : GoString),
      (∀ u ∈ p, IsValidURL u = some true) → IsValidURL b = some false →
        BatchProcessURLs clock (p ++ b :: q)
          = some (none, some (.wrapf "failed to process URL %d (%s): %w"
              [.int (p.length : Int), .str b]
              (.errorf "invalid URL: %s" [.str b]))) := by
    intro p q b hp hb
    have h := batchLoop_invalid clock p 0 [] b q hp hb
    simpa [BatchProcessURLs] using h
  refine ⟨?_, hsecond pre post bad⟩
  by_cases hempty : urls = []
  · subst hempty
    exact ⟨none, _, rfl, by simp, fun _ => rfl⟩
  · by_cases hbad : ∃ u ∈ urls, IsValidURL u = some false
    · obtain ⟨p, b, q, he, hp, hb⟩ := split_first_invalid urls hbad
      refine ⟨none, _, he ▸ hsecond p q b hp hb, ?_, fun _ => rfl⟩
      simp only [ne_eq, not_false_eq_true, true_iff, reduceCtorEq]
      exact Or.inr hbad
    · have hall : ∀ u ∈ urls, IsValidURL u = some true := by
        intro u hu
        rcases IsValidURL_cases u with h | h
        · exact h
        · exact absurd ⟨u, hu, h⟩ hbad
      obtain ⟨rs, hrs, _, _⟩ := batch_all_valid clock urls hempty hall
      exact ⟨some rs, none, hrs, by simp [hempty, hbad], fun h => absurd rfl h⟩

/-- C19 on the list "https://a.com", "not-a-url": nil, and the error for index 1. -/
theorem C19_batch_errors_witness :
    (∀ u ∈ [lit "https://a.com"], IsValidURL u = some true) ∧
      IsValidURL (lit "not-a-url") = some false ∧
      BatchProcessURLs (fun _ => 1700000000) ([lit "https://a.com"] ++ lit "not-a-url" :: [])
        = some (none, some (.wrapf "failed to process URL %d (%s): %w"
            [.int (([lit "https://a.com"] : List GoString).length : Int),
              .str (lit "not-a-url")]
            (.errorf "invalid URL: %s" [.str (lit "not-a-url")]))) :=
  ⟨by decide, by decide,
    (C19_batch_errors (fun _ => 1700000000) [] [lit "https://a.com"] [] (lit "not-a-url")).2
      (by decide) (by decide)⟩

/-! ## Lemmas on the library functions -/

theorem wrap64_of_range (x : Int) (h0 : -(2 ^ 63) ≤ x) (h1 : x < 2 ^ 63) : wrap64 x = x := by
  unfold wrap64
  norm_num at h0 h1 ⊢
  omega

theorem wrap64_range (x : Int) : -(2 ^ 63) ≤ wrap64 x ∧ wrap64 x < 2 ^ 63 := by
  unfold wrap64
  norm_num
  omega

/-- What `leadingInt` leaves is an end of its string. -/
theorem leadingInt_suffix : ∀ (s : GoString) (x v : Nat) (r : GoString),
    leadingInt s x = some (v, r) → r <:+ s := by
  intro s
  induction s with
  | nil =>
    intro x v r h
    simp only [leadingInt, Option.some.injEq, Prod.mk.injEq] at h
    rw [← h.2]
  | cons c t ih =>
    intro x v r h
    unfold leadingInt at h
    split_ifs at h with h1 h2 h3
    · simp only [Option.some.injEq, Prod.mk.injEq] at h
      rw [← h.2]
    · exact (ih _ v r h).trans (List.suffix_cons c t)

/-- What `leadingFraction` leaves is an end of its string. -/
theorem leadingFraction_suffix : ∀ (s : GoString) (x scale : Nat) (o : Bool),
    (leadingFraction s x scale o).2.2 <:+ s := by
  intro s
  induction s with
  | nil => intro x scale o; simp [leadingFraction]
  | cons c t ih =>
    intro x scale o
    unfold leadingFraction
    split_ifs
    · exact List.suffix_refl _
    all_goals exact (ih _ _ _).trans (List.suffix_cons c t)

theorem fractionPart_suffix (s1 : GoString) : (fractionPart s1).2.2.1 <:+ s1 := by
  unfold fractionPart
  cases s1 with
  | nil => simp
  | cons c r =>
    dsimp only
    split_ifs
    · exact (leadingFraction_suffix r 0 1 false).trans (List.suffix_cons c r)
    · exact List.suffix_refl _

theorem unitLength_le : ∀ s : GoString, unitLength s ≤ s.length := by
  intro s
  induction s with
  | nil => simp [unitLength]
  | cons c t ih =>
    unfold unitLength
    split_ifs
    · omega
    · simp only [List.length_cons]
      omega

/-- A turn of `unitPart` that succeeds takes at least one byte. -/
theorem unitPart_length (fr : Nat → Nat → Nat → Nat) (v f scale : Nat) (s2 : GoString)
    (w : Nat) (rest : GoString) (h : unitPart fr v f scale s2 = .ok (w, rest)) :
    rest.length < s2.length := by
  unfold unitPart at h
  have hle := unitLength_le s2
  by_cases h0 : unitLength s2 = 0
  · simp [h0] at h
  · simp only [h0, if_false] at h
    have hdrop : (s2.drop (unitLength s2)).length < s2.length := by
      rw [List.length_drop]
      omega
    cases hu : unitMap (s2.take (unitLength s2)) with
    | none => simp [hu] at h
    | some unit =>
      simp only [hu] at h
      split_ifs at h
      all_goals
        cases h
        exact hdrop

/-- A turn of the loop of `time.ParseDuration` that succeeds shortens the string. -/
theorem parseTerm_length (fr : Nat → Nat → Nat → Nat) (s : GoString) (w : Nat)
    (rest : GoString) (h : parseTerm fr s = .ok (w, rest)) : rest.length < s.length := by
  unfold parseTerm at h
  cases s with
  | nil => exact absurd h (by simp)
  | cons c t =>
    dsimp only at h
    split_ifs at h with h1
    split at h
    · exact absurd h (by simp)
    · rename_i v s1 hli
      split_ifs at h with h2
      have ha := unitPart_length fr _ _ _ _ w rest h
      have hb := (fractionPart_suffix s1).length_le
      have hc := (leadingInt_suffix _ _ _ _ hli).length_le
      omega

/-- The loop of `time.ParseDuration` ends within as many turns as the string has bytes. -/
theorem parseDurationLoop_returns (fr : Nat → Nat → Nat → Nat) :
    ∀ (fuel : Nat) (s : GoString) (d : Nat), s.length ≤ fuel →
      ∃ r, parseDurationLoop fr fuel s d = some r := by
  intro fuel
  induction fuel with
  | zero =>
    intro s d h
    cases s with
    | nil => exact ⟨_, rfl⟩
    | cons c t => simp at h
  | succ n ih =>
    intro s d h
    cases s with
    | nil => exact ⟨_, rfl⟩
    | cons c t =>
      unfold parseDurationLoop
      cases hp : parseTerm fr (c :: t) with
      | error err => exact ⟨_, rfl⟩
      | ok vr =>
        obtain ⟨v, rest⟩ := vr
        dsimp only
        split_ifs
        · exact ⟨_, rfl⟩
        · have hl := parseTerm_length fr _ v rest hp
          exact ih rest _ (by simp only [List.length_cons] at h hl; omega)

theorem durationBody_returns (fr : Nat → Nat → Nat → Nat) (neg : Bool) (s : GoString) :
    ∃ d e, durationBody fr neg s = some (d, e) := by
  unfold durationBody
  by_cases h0 : s = lit "0"
  · exact ⟨0, none, by simp [h0]⟩
  · by_cases h1 : s = []
    · subst h1
      exact ⟨0, some (.external "time: invalid duration"), rfl⟩
    · simp only [h0, h1, if_false]
      obtain ⟨r, hr⟩ := parseDurationLoop_returns fr _ s 0 (le_refl _)
      rw [hr]
      cases r with
      | error err => exact ⟨_, _, rfl⟩
      | ok d =>
        dsimp only
        split_ifs
        all_goals exact ⟨_, _, rfl⟩

/-- The model of `time.ParseDuration` returns on every string. -/
theorem ParseDuration_returns (fr : Nat → Nat → Nat → Nat) (s : GoString) :
    ∃ d e, time.ParseDuration fr s = some (d, e) := by
  unfold time.ParseDuration
  cases s with
  | nil => exact durationBody_returns fr _ _
  | cons c rest =>
    dsimp only
    split_ifs
    · exact durationBody_returns fr _ _
    · exact durationBody_returns fr _ _

/-- The model of `ParseDelay` returns on every string, and a duration returned without
error is not negative. -/
theorem ParseDelay_nonneg (fr : Nat → Nat → Nat → Nat) (s : GoString) :
    ∃ d e, ParseDelay fr s = some (d, e) ∧ (e = none → 0 ≤ d) := by
  unfold ParseDelay
  by_cases h0 : s = []
  · exact ⟨0, some (.errorf "delay string cannot be empty" []), by simp [h0],
      fun _ => le_refl _⟩
  · obtain ⟨pd, pe, hp⟩ := ParseDuration_returns fr s
    simp only [h0, if_false, hp]
    cases pe with
    | none =>
      dsimp only
      split_ifs with hneg
      · exact ⟨_, _, rfl, fun h => absurd h (by simp)⟩
      · exact ⟨_, _, rfl, fun _ => by omega⟩
    | some err =>
      dsimp only
      rcases hat : strconv.Atoi s with ⟨sec, _ | ae⟩
      · dsimp only
        split_ifs with hneg
        · exact ⟨_, _, rfl, fun h => absurd h (by simp)⟩
        · exact ⟨_, _, rfl, fun _ => by omega⟩
      · exact ⟨_, _, rfl, fun h => absurd h (by simp)⟩

/-- What `ParseDelay` returns when `time.ParseDuration` has parsed the string. -/
theorem ParseDelay_of_duration (fr : Nat → Nat → Nat → Nat) (s : GoString) (pd : Int)
    (h0 : s ≠ []) (hp : time.ParseDuration fr s = some (pd, none)) :
    ParseDelay fr s
      = if pd < 0 then some (0, some (.errorf "delay cannot be negative" []))
        else some (pd, none) := by
  unfold ParseDelay
  simp only [h0, if_false, hp]

/-- What `ParseDelay` returns when `time.ParseDuration` fails and `strconv.Atoi` has parsed
the string. -/
theorem ParseDelay_of_seconds (fr : Nat → Nat → Nat → Nat) (s : GoString) (pd sec : Int)
    (pe : GoError) (h0 : s ≠ []) (hp : time.ParseDuration fr s = some (pd, some pe))
    (ha : strconv.Atoi s = (sec, none)) :
    ParseDelay fr s
      = if wrap64 (sec * time.Second) < 0 then
          some (0, some (.errorf "delay cannot be negative" []))
        else some (wrap64 (sec * time.Second), none) := by
  unfold ParseDelay
  simp only [h0, if_false, hp, ha]

/-- What `ParseDelay` returns when both parsers fail. -/
theorem ParseDelay_of_neither (fr : Nat → Nat → Nat → Nat) (s : GoString) (pd sec : Int)
    (pe ae : GoError) (h0 : s ≠ []) (hp : time.ParseDuration fr s = some (pd, some pe))
    (ha : strconv.Atoi s = (sec, some ae)) :
    ParseDelay fr s = some (0, some (.errorf "invalid delay format: %s" [.str s])) := by
  unfold ParseDelay
  simp only [h0, if_false, hp, ha]

/-! ## Strings of decimal digits -/

theorem isDigit_iff (c : Byte) : isDigit c = true ↔ 0x30 ≤ c.val ∧ c.val ≤ 0x39 := by
  simp [isDigit]

theorem le_digitsValue : ∀ (ds : GoString) (x : Nat), x ≤ digitsValue ds x := by
  intro ds
  induction ds with
  | nil => intro x; exact le_refl _
  | cons c t ih =>
    intro x
    have h := ih (x * 10 + (c.val - 0x30))
    simp only [digitsValue]
    omega

/-- On digits followed by something that is not a digit, `leadingInt` reads the number of
the digits, as long as it is small enough for the overflow tests. -/
theorem leadingInt_digits : ∀ (ds : GoString) (x : Nat) (rest : GoString),
    ds.all isDigit = true → (∀ c r, rest = c :: r → isDigit c = false) →
    digitsValue ds x ≤ 922337203685477580 →
    leadingInt (ds ++ rest) x = some (digitsValue ds x, rest) := by
  intro ds
  induction ds with
  | nil =>
    intro x rest _ hrest _
    cases rest with
    | nil => rfl
    | cons c r =>
      have hc := hrest c r rfl
      have hc2 : c.val < 0x30 ∨ c.val > 0x39 := by
        by_contra hcon
        have : isDigit c = true := (isDigit_iff c).2 (by omega)
        rw [hc] at this
        exact absurd this (by simp)
      simp [leadingInt, digitsValue, hc2]
  | cons c t ih =>
    intro x rest hall hrest hb
    simp only [List.all_cons, Bool.and_eq_true] at hall
    have hc := (isDigit_iff c).1 hall.1
    have hmono := le_digitsValue t (x * 10 + (c.val - 0x30))
    simp only [digitsValue] at hb ⊢
    have h1 : ¬ (c.val < 0x30 ∨ c.val > 0x39) := by omega
    have h2 : ¬ (x > 2 ^ 63 / 10) := by norm_num; omega
    have h3 : ¬ (x * 10 + (c.val - 0x30) > 2 ^ 63) := by norm_num; omega
    simp only [List.cons_append, leadingInt, h1, h2, h3, if_false]
    exact ih _ rest hall.2 hrest hb

/-- On digits alone `leadingInt` reads to the end of the string, or overflows. -/
theorem leadingInt_all_digits : ∀ (ds : GoString) (x : Nat), ds.all isDigit = true →
    leadingInt ds x = none ∨ ∃ v, leadingInt ds x = some (v, []) := by
  intro ds
  induction ds with
  | nil => intro x _; exact Or.inr ⟨x, rfl⟩
  | cons c t ih =>
    intro x hall
    simp only [List.all_cons, Bool.and_eq_true] at hall
    have hc := (isDigit_iff c).1 hall.1
    have h1 : ¬ (c.val < 0x30 ∨ c.val > 0x39) := by omega
    simp only [leadingInt, h1, if_false]
    split_ifs
    · exact Or.inl rfl
    · exact Or.inl rfl
    · exact ih _ hall.2

/-- A string of digits has no unit: the turn of the loop of `time.ParseDuration` fails. -/
theorem parseTerm_digits (fr : Nat → Nat → Nat → Nat) (ds : GoString) (hne : ds ≠ [])
    (hall : ds.all isDigit = true) : ∃ err, parseTerm fr ds = .error err := by
  cases ds with
  | nil => exact absurd rfl hne
  | cons c t =>
    have hc : isDigit c = true := by
      simp only [List.all_cons, Bool.and_eq_true] at hall
      exact hall.1
    unfold parseTerm
    simp only [hc, or_true, not_true_eq_false, if_false]
    rcases leadingInt_all_digits (c :: t) 0 hall with h | ⟨v, h⟩
    · rw [h]
      exact ⟨_, rfl⟩
    · rw [h]
      simp [fractionPart, unitPart, unitLength]

/-- On a string of digits other than "0", `time.ParseDuration` returns an error. -/
theorem ParseDuration_digits (fr : Nat → Nat → Nat → Nat) (ds : GoString) (hne : ds ≠ [])
    (hall : ds.all isDigit = true) (h0 : ds ≠ lit "0") :
    ∃ err, time.ParseDuration fr ds = some (0, some err) := by
  obtain ⟨err, hterm⟩ := parseTerm_digits fr ds hne hall
  cases ds with
  | nil => exact absurd rfl hne
  | cons c t =>
    have hc : 0x30 ≤ c.val ∧ c.val ≤ 0x39 := by
      simp only [List.all_cons, Bool.and_eq_true] at hall
      exact (isDigit_iff c).1 hall.1
    have hsign : ¬ (c = 0x2D ∨ c = 0x2B) := by
      rintro (h | h) <;> · subst h; exact absurd hc (by decide)
    refine ⟨err, ?_⟩
    unfold time.ParseDuration
    simp only [hsign, if_false]
    unfold durationBody
    simp only [h0, if_false, List.length_cons, parseDurationLoop, hterm, reduceCtorEq]

/-- On a non-empty string of digits whose number is in the range of `int`, `strconv.Atoi`
returns that number. -/
theorem Atoi_digits (ds : GoString) (hne : ds ≠ []) (hall : ds.all isDigit = true)
    (hb : digitsValue ds 0 < 2 ^ 63) :
    strconv.Atoi ds = (((digitsValue ds 0 : Nat) : Int), none) := by
  cases ds with
  | nil => exact absurd rfl hne
  | cons c t =>
    have hc : 0x30 ≤ c.val ∧ c.val ≤ 0x39 := by
      simp only [List.all_cons, Bool.and_eq_true] at hall
      exact (isDigit_iff c).1 hall.1
    have hsign : ¬ (c = 0x2D ∨ c = 0x2B) := by
      rintro (h | h) <;> · subst h; exact absurd hc (by decide)
    have hminus : ¬ (c = 0x2D) := fun h => hsign (Or.inl h)
    have hplus : ¬ (c = 0x2B) := fun h => hsign (Or.inr h)
    have hb2 : ¬ (9223372036854775808 ≤ digitsValue (c :: t) 0) := by
      norm_num at hb
      omega
    have hall2 : ¬ ∃ x ∈ c :: t, isDigit x = false := by
      rintro ⟨x, hx, hxf⟩
      have := List.all_eq_true.mp hall x hx
      rw [hxf] at this
      exact absurd this (by simp)
    unfold strconv.Atoi
    simp [hminus, hplus, hall2, hb2]
    simpa [List.all_eq_true] using hall

/-- On a non-empty string of digits whose number `n` is at most 9223372036, `ParseDelay`
returns `n` seconds. -/
theorem ParseDelay_digits (fr : Nat → Nat → Nat → Nat) (ds : GoString) (hne : ds ≠ [])
    (hall : ds.all isDigit = true) (hb : digitsValue ds 0 ≤ 9223372036) :
    ParseDelay fr ds = some (((digitsValue ds 0 : Nat) : Int) * time.Second, none) := by
  by_cases h0 : ds = lit "0"
  · subst h0
    rfl
  · obtain ⟨err, hp⟩ := ParseDuration_digits fr ds hne hall h0
    have ha := Atoi_digits ds hne hall (by norm_num; omega)
    rw [ParseDelay_of_seconds fr ds 0 _ err hne hp ha]
    have hrange : wrap64 (((digitsValue ds 0 : Nat) : Int) * time.Second)
        = ((digitsValue ds 0 : Nat) : Int) * time.Second := by
      apply wrap64_of_range
      · unfold time.Second
        norm_num
        omega
      · unfold time.Second
        norm_num
        omega
    rw [hrange]
    have hpos : ¬ (((digitsValue ds 0 : Nat) : Int) * time.Second < 0) := by
      unfold time.Second
      omega
    rw [if_neg hpos]

/-- On digits whose number `n` is at most 9223372036, followed by "s", the turn of the loop
of `time.ParseDuration` gives `n` times the nanoseconds of a second. -/
theorem parseTerm_digits_s (fr : Nat → Nat → Nat → Nat) (ds : GoString) (hne : ds ≠ [])
    (hall : ds.all isDigit = true) (hb : digitsValue ds 0 ≤ 9223372036) :
    parseTerm fr (ds ++ lit "s") = .ok (digitsValue ds 0 * 1000000000, []) := by
  have hli : leadingInt (ds ++ lit "s") 0 = some (digitsValue ds 0, lit "s") := by
    apply leadingInt_digits ds 0 (lit "s") hall
    · intro c r hcr
      have hc : c = 0x73 := by
        have h1 : lit "s" = [0x73] := by decide
        rw [h1] at hcr
        simp only [List.cons.injEq] at hcr
        exact hcr.1.symm
      subst hc
      decide
    · omega
  cases ds with
  | nil => exact absurd rfl hne
  | cons c t =>
    have hc : isDigit c = true := by
      simp only [List.all_cons, Bool.and_eq_true] at hall
      exact hall.1
    have hlen : ¬ ((c :: t ++ lit "s").length = (lit "s").length) := by
      simp only [List.length_append, List.length_cons]
      omega
    have hfrac : fractionPart (lit "s") = (0, 1, lit "s", false) := by decide
    have hunit : unitPart fr (digitsValue (c :: t) 0) 0 1 (lit "s")
        = .ok (digitsValue (c :: t) 0 * 1000000000, []) := by
      have h1 : unitLength (lit "s") = 1 := by decide
      have h2 : unitMap ((lit "s").take 1) = some 1000000000 := by decide
      have h3 : (lit "s").drop 1 = [] := by decide
      have h4 : ¬ (digitsValue (c :: t) 0 > 2 ^ 63 / 1000000000) := by norm_num; omega
      unfold unitPart
      simp only [h1, h2, h3, h4, one_ne_zero, if_false, gt_iff_lt, lt_self_iff_false]
    unfold parseTerm
    rw [List.cons_append] at hli ⊢
    simp only [hc, or_true, not_true_eq_false, if_false, hli]
    rw [List.cons_append] at hlen
    simp only [hlen, false_and, if_false, hfrac, hunit]

/-- On digits whose number `n` is at most 9223372036, followed by "s",
`time.ParseDuration` returns `n` seconds. -/
theorem ParseDuration_digits_s (fr : Nat → Nat → Nat → Nat) (ds : GoString) (hne : ds ≠ [])
    (hall : ds.all isDigit = true) (hb : digitsValue ds 0 ≤ 9223372036) :
    time.ParseDuration fr (ds ++ lit "s")
      = some (((digitsValue ds 0 : Nat) : Int) * time.Second, none) := by
  have hterm := parseTerm_digits_s fr ds hne hall hb
  cases ds with
  | nil => exact absurd rfl hne
  | cons c t =>
    have hc : 0x30 ≤ c.val ∧ c.val ≤ 0x39 := by
      simp only [List.all_cons, Bool.and_eq_true] at hall
      exact (isDigit_iff c).1 hall.1
    have hsign : ¬ (c = 0x2D ∨ c = 0x2B) := by
      rintro (h | h) <;> · subst h; exact absurd hc (by decide)
    have hzero : ¬ (c :: (t ++ lit "s") = lit "0") := by
      intro h
      have := congrArg List.length h
      simp only [List.length_cons, List.length_append] at this
      have h1 : (lit "s").length = 1 := by decide
      have h2 : (lit "0").length = 1 := by decide
      omega
    have hmod : (0 + digitsValue (c :: t) 0 * 1000000000) % 2 ^ 64
        = digitsValue (c :: t) 0 * 1000000000 := by
      rw [Nat.zero_add]
      apply Nat.mod_eq_of_lt
      norm_num
      omega
    have hsum2 : ¬ (9223372036854775808 < digitsValue (c :: t) 0 * 1000000000) := by omega
    have hsum : ¬ ((0 + digitsValue (c :: t) 0 * 1000000000) % 2 ^ 64 > 2 ^ 63) := by
      rw [hmod]
      norm_num
      omega
    have hmax : ¬ (9223372036854775807 < digitsValue (c :: t) 0 * 1000000000) := by omega
    rw [List.cons_append] at hterm ⊢
    unfold time.ParseDuration
    simp only [hsign, if_false]
    unfold durationBody
    simp only [hzero, if_false, List.length_cons, parseDurationLoop, hterm, hsum, hmod,
      reduceCtorEq, Bool.false_eq_true]
    simp [hsum2, hmax, time.Second]

/-- C16, as stated, fails: "9223372037" is a plain decimal integer, but 9223372037 seconds
are more nanoseconds than an `int64` holds; the product wraps to a negative number and
`ParseDelay` returns an error.  On "18446744074" the product wraps to 290448384 nanoseconds,
returned without error. -/
theorem C16_large_integer_overflows :
    lit "9223372037" ≠ [] ∧ (lit "9223372037").all isDigit = true ∧
      digitsValue (lit "9223372037") 0 = 9223372037 ∧
      ParseDelay (fun _ _ _ => 0) (lit "9223372037")
        = some (0, some (.errorf "delay cannot be negative" [])) ∧
      ParseDelay (fun _ _ _ => 0) (lit "18446744074") = some (290448384, none) := by
  decide

/-- C16, amended: on every non-empty string of decimal digits whose number `n` is at most
9223372036, `ParseDelay` returns no error and `n` seconds, that is `n` times 1000000000
nanoseconds, and it returns the same on the string followed by "s"; so "5" and "5s" both
give five seconds. -/
theorem C16_parseDelay_seconds (fr : Nat → Nat → Nat → Nat) (ds : GoString) (hne : ds ≠ [])
    (hall : ds.all isDigit = true) (hb : digitsValue ds 0 ≤ 9223372036) :
    ParseDelay fr ds = some (((digitsValue ds 0 : Nat) : Int) * 1000000000, none) ∧
      ParseDelay fr (ds ++ lit "s")
        = some (((digitsValue ds 0 : Nat) : Int) * 1000000000, none) ∧
      ParseDelay fr (lit "5") = some (5 * time.Second, none) ∧
      ParseDelay fr (lit "5s") = some (5 * time.Second, none) := by
  refine ⟨?_, ?_, rfl, rfl⟩
  · rw [ParseDelay_digits fr ds hne hall hb]
    rfl
  · have hne2 : ds ++ lit "s" ≠ [] := by simp [hne]
    rw [ParseDelay_of_duration fr _ _ hne2 (ParseDuration_digits_s fr ds hne hall hb)]
    have hpos : ¬ (((digitsValue ds 0 : Nat) : Int) * time.Second < 0) := by
      unfold time.Second
      omega
    rw [if_neg hpos]
    rfl

/-- C16 amended, at "5" and at the largest number of seconds, "9223372036". -/
theorem C16_parseDelay_seconds_witness :
    (lit "5" ≠ [] ∧ (lit "5").all isDigit = true ∧ digitsValue (lit "5") 0 ≤ 9223372036 ∧
        ParseDelay (fun _ _ _ => 0) (lit "5")
          = some (((digitsValue (lit "5") 0 : Nat) : Int) * 1000000000, none) ∧
        ParseDelay (fun _ _ _ => 0) (lit "5" ++ lit "s")
          = some (((digitsValue (lit "5") 0 : Nat) : Int) * 1000000000, none)) ∧
      (lit "9223372036" ≠ [] ∧ (lit "9223372036").all isDigit = true ∧
        digitsValue (lit "9223372036") 0 ≤ 9223372036 ∧
        ParseDelay (fun _ _ _ => 0) (lit "9223372036")
          = some (((digitsValue (lit "9223372036") 0 : Nat) : Int) * 1000000000, none)) :=
  have a := C16_parseDelay_seconds (fun _ _ _ => 0) (lit "5") (by decide) (by decide)
    (by decide)
  have b := C16_parseDelay_seconds (fun _ _ _ => 0) (lit "9223372036") (by decide)
    (by decide) (by decide)
  ⟨⟨by decide, by decide, by decide, a.1, a.2.1⟩, ⟨by decide, by decide, by decide, b.1⟩⟩

/-! ## The claims on the error type and on the reach of the URL utilities -/

/-- C21: the error value of `NewSpiderError(t, m, u)` has the fields t, m and u, and its
`Error()` text is t, then ": ", then m, then " (URL: ", then u, then ")"; for three empty
strings it is ":  (URL: )", and for the strings of the test it is
"NetworkError: Connection failed (URL: https://example.com)". -/
theorem C21_spiderError_text (t m u : GoString) :
    (NewSpiderError t m u).«Type» = t ∧ (NewSpiderError t m u).Message = m ∧
      (NewSpiderError t m u).URL = u ∧
      (NewSpiderError t m u).Error = t ++ lit ": " ++ m ++ lit " (URL: " ++ u ++ lit ")" ∧
      (NewSpiderError (lit "") (lit "") (lit "")).Error = lit ":  (URL: )" ∧
      (NewSpiderError (lit "NetworkError") (lit "Connection failed")
          (lit "https://example.com")).Error
        = lit "NetworkError: Connection failed (URL: https://example.com)" := by
  refine ⟨rfl, rfl, rfl, rfl, by decide, by decide⟩

/-- C22, as stated, fails: `IsValidURL` accepts "http:///", and `ExtractDomain` returns for
it the empty domain, with no error. -/
theorem C22_empty_domain :
    IsValidURL (lit "http:///") = some true ∧
      ExtractDomain (lit "http:///") = some ([], none) := by
  decide

/-- C22, amended: for every URL that `IsValidURL` accepts, `ExtractDomain` returns no error;
when the scheme is followed by a byte, the domain is non-empty exactly when that byte is not
a slash. -/
theorem C22_extractDomain_nonempty (s : GoString) (hv : IsValidURL s = some true) :
    ∃ d, ExtractDomain s = some (d, none) ∧
      ∀ (c : Byte) (r : GoString),
        (s = lit "http://" ++ c :: r ∨ s = lit "https://" ++ c :: r) →
          (d ≠ [] ↔ c ≠ (0x2F : Byte)) := by
  obtain ⟨d, e, hd, he⟩ := ExtractDomain_error_iff s
  have hnone : e = none := by
    by_contra hne
    have := he.1 hne
    rw [hv] at this
    exact absurd this (by simp)
  subst hnone
  refine ⟨d, hd, ?_⟩
  intro c r hs
  have hdom : ExtractDomain s = some ((c :: r).takeWhile (fun b => b != 0x2F), none) := by
    rcases hs with rfl | rfl
    · exact ExtractDomain_http (c :: r) (by simp)
    · exact ExtractDomain_https (c :: r) (by simp)
  rw [hd] at hdom
  simp only [Option.some.injEq, Prod.mk.injEq, and_true] at hdom
  subst hdom
  by_cases hc : c = (0x2F : Byte)
  · simp [List.takeWhile_cons, hc]
  · simp [List.takeWhile_cons, hc]

/-- C22 amended, at "https://example.com:8080/path": the domain is not empty. -/
theorem C22_extractDomain_nonempty_witness :
    IsValidURL (lit "https://example.com:8080/path") = some true ∧
      ∃ d, ExtractDomain (lit "https://example.com:8080/path") = some (d, none) ∧
        d ≠ [] :=
  ⟨by decide,
    match C22_extractDomain_nonempty (lit "https://example.com:8080/path") (by decide) with
    | ⟨d, hd, h⟩ =>
      ⟨d, hd, (h 0x65 (lit "xample.com:8080/path") (Or.inr (by decide))).2 (by decide)⟩⟩

/-- C23: when `ExtractDomain` returns no error, the domain it returns has no slash. -/
theorem C23_domain_has_no_slash (s d : GoString) (h : ExtractDomain s = some (d, none)) :
    (0x2F : Byte) ∉ d := by
  have hv : IsValidURL s = some true := by
    rcases IsValidURL_cases s with hv | hv
    · exact hv
    · rw [ExtractDomain_invalid s hv] at h
      exact absurd h (by simp)
  have htw : ∀ l : GoString, (0x2F : Byte) ∉ l.takeWhile (fun b => b != 0x2F) := by
    intro l hm
    have := List.mem_takeWhile_imp hm
    simp at this
  by_cases hs : s = lit "https://"
  · subst hs
    have hd : ExtractDomain (lit "https://") = some (lit "https:", none) := by decide
    rw [hd] at h
    simp only [Option.some.injEq, Prod.mk.injEq, and_true] at h
    subst h
    decide
  · obtain ⟨host, _, _, hd⟩ := ExtractDomain_valid s hs hv
    rw [hd] at h
    simp only [Option.some.injEq, Prod.mk.injEq, and_true] at h
    subst h
    exact htw host

/-- C23 at "https://example.com/path", with the domain "example.com". -/
theorem C23_domain_has_no_slash_witness :
    ExtractDomain (lit "https://example.com/path") = some (lit "example.com", none) ∧
      (0x2F : Byte) ∉ lit "example.com" :=
  ⟨by decide,
    C23_domain_has_no_slash (lit "https://example.com/path") (lit "example.com")
      (by decide)⟩

/-- C24: on every string, the empty one and those of fewer than 8 bytes included,
`IsValidURL` and `ExtractDomain` return: no slice they take is out of range.  The index
found by the loop of `ExtractDomain` is within the string, and so are the slices
`url[:7]`, `url[:8]`, `url[7:]`, `url[8:]` wherever the guard on the length lets them
be taken. -/
theorem C24_no_slice_out_of_range (s : GoString) :
    (∃ b, IsValidURL s = some b) ∧ (∃ d e, ExtractDomain s = some (d, e)) ∧
      findSlash s s.length ≤ s.length ∧
      (s.length > 7 → sliceTo s 7 = some (s.take 7) ∧ sliceTo s 8 = some (s.take 8) ∧
        sliceFrom s 7 = some (s.drop 7)) ∧
      (s.length > 8 → sliceFrom s 8 = some (s.drop 8)) ∧
      sliceTo s (findSlash s s.length) = some (s.take (findSlash s s.length)) ∧
      IsValidURL (lit "") = some false ∧ IsValidURL (lit "https:/") = some false ∧
      ExtractDomain (lit "")
        = some ([], some (.errorf "invalid URL: %s" [.str (lit "")])) := by
  refine ⟨⟨_, IsValidURL_eq s⟩, ?_, findSlash_le s, ?_, ?_, ?_, by decide, by decide,
    by decide⟩
  · obtain ⟨d, e, h, _⟩ := ExtractDomain_error_iff s
    exact ⟨d, e, h⟩
  · intro h
    have h7 : 7 ≤ s.length := by omega
    have h8 : 8 ≤ s.length := by omega
    simp [sliceTo, sliceFrom, h7, h8]
  · intro h
    have h8 : 8 ≤ s.length := by omega
    simp [sliceFrom, h8]
  · simp [sliceTo, findSlash_le s]

/-- C24 at the 8-byte string "http://a": the slices are taken and are in range. -/
theorem C24_no_slice_out_of_range_witness :
    (lit "http://a").length > 7 ∧
      sliceTo (lit "http://a") 7 = some ((lit "http://a").take 7) ∧
      sliceTo (lit "http://a") 8 = some ((lit "http://a").take 8) ∧
      sliceFrom (lit "http://a") 7 = some ((lit "http://a").drop 7) :=
  ⟨by decide, (C24_no_slice_out_of_range (lit "http://a")).2.2.2.1 (by decide)⟩

/-- C25: for every string that `IsValidURL` accepts, `ExtractDomain` returns no error; so
`ProcessURL` never returns the error "failed to extract domain", and an error it returns is
the error "invalid URL" of its first test. -/
theorem C25_processURL_only_invalid_error (now : Int) (s : GoString) :
    (IsValidURL s = some true → ∃ d, ExtractDomain s = some (d, none)) ∧
      (∀ m e, ProcessURL now s = some (m, some e) →
        e = .errorf "invalid URL: %s" [.str s] ∧ IsValidURL s = some false) ∧
      (∀ m inner, ProcessURL now s
        ≠ some (m, some (.wrapf "failed to extract domain: %w" [] inner))) := by
  have hvalid : IsValidURL s = some true → ∃ d, ExtractDomain s = some (d, none) := by
    intro hv
    obtain ⟨d, hd, _⟩ := ProcessURL_valid now s hv
    exact ⟨d, hd⟩
  have herr : ∀ m e, ProcessURL now s = some (m, some e) →
      e = .errorf "invalid URL: %s" [.str s] ∧ IsValidURL s = some false := by
    intro m e h
    rcases IsValidURL_cases s with hv | hv
    · obtain ⟨d, _, hp⟩ := ProcessURL_valid now s hv
      rw [hp] at h
      exact absurd h (by simp)
    · rw [ProcessURL_invalid now s hv] at h
      simp only [Option.some.injEq, Prod.mk.injEq] at h
      exact ⟨h.2.symm, hv⟩
  refine ⟨hvalid, herr, ?_⟩
  intro m inner h
  have := (herr m _ h).1
  exact absurd this (by simp)

/-- C25 at "https://example.com" and at "not-a-url", processed at the time 1700000000. -/
theorem C25_processURL_only_invalid_error_witness :
    IsValidURL (lit "https://example.com") = some true ∧
      (∃ d, ExtractDomain (lit "https://example.com") = some (d, none)) ∧
      ProcessURL 1700000000 (lit "not-a-url")
        = some (none, some (.errorf "invalid URL: %s" [.str (lit "not-a-url")])) ∧
      IsValidURL (lit "not-a-url") = some false :=
  ⟨by decide,
    (C25_processURL_only_invalid_error 1700000000 (lit "https://example.com")).1 (by decide),
    by decide,
    ((C25_processURL_only_invalid_error 1700000000 (lit "not-a-url")).2.1 none
      (.errorf "invalid URL: %s" [.str (lit "not-a-url")]) (by decide)).2⟩

/-! ## The claim on the errors of `ParseDelay` -/

/-- After the sign, a string of digits other than "0" has no unit: the body of
`time.ParseDuration` returns an error. -/
theorem durationBody_digits (fr : Nat → Nat → Nat → Nat) (neg : Bool) (ds : GoString)
    (hne : ds ≠ []) (hall : ds.all isDigit = true) (h0 : ds ≠ lit "0") :
    ∃ err, durationBody fr neg ds = some (0, some err) := by
  obtain ⟨err, hterm⟩ := parseTerm_digits fr ds hne hall
  cases ds with
  | nil => exact absurd rfl hne
  | cons c t =>
    refine ⟨err, ?_⟩
    unfold durationBody
    simp only [h0, if_false, List.length_cons, parseDurationLoop, hterm, reduceCtorEq]

/-- On a minus sign followed by digits whose number is at most 2 ^ 63, `strconv.Atoi` returns
the negative of that number. -/
theorem Atoi_minus_digits (ds : GoString) (hne : ds ≠ []) (hall : ds.all isDigit = true)
    (hb : digitsValue ds 0 ≤ 2 ^ 63) :
    strconv.Atoi ((0x2D : Byte) :: ds) = (-((digitsValue ds 0 : Nat) : Int), none) := by
  have hb2 : ¬ (9223372036854775808 < digitsValue ds 0) := by
    norm_num at hb
    omega
  have hall2 : ¬ ∃ x ∈ ds, isDigit x = false := by
    rintro ⟨x, hx, hxf⟩
    have := List.all_eq_true.mp hall x hx
    rw [hxf] at this
    exact absurd this (by simp)
  unfold strconv.Atoi
  simp [hne, hall2, hb2]

/-- On a minus sign followed by digits whose number is from 1 to 9223372036, `ParseDelay`
returns the error for a negative delay. -/
theorem ParseDelay_minus_digits (fr : Nat → Nat → Nat → Nat) (ds : GoString)
    (hne : ds ≠ []) (hall : ds.all isDigit = true) (h1 : 1 ≤ digitsValue ds 0)
    (hb : digitsValue ds 0 ≤ 9223372036) :
    ParseDelay fr ((0x2D : Byte) :: ds)
      = some (0, some (.errorf "delay cannot be negative" [])) := by
  have h0 : ds ≠ lit "0" := by
    intro h
    subst h
    exact absurd h1 (by decide)
  obtain ⟨err, hbody⟩ := durationBody_digits fr true ds hne hall h0
  have hp : time.ParseDuration fr ((0x2D : Byte) :: ds) = some (0, some err) := by
    unfold time.ParseDuration
    simpa using hbody
  have ha := Atoi_minus_digits ds hne hall (by norm_num; omega)
  rw [ParseDelay_of_seconds fr _ 0 _ err (by simp) hp ha]
  have hrange : wrap64 (-((digitsValue ds 0 : Nat) : Int) * time.Second)
      = -((digitsValue ds 0 : Nat) : Int) * time.Second := by
    apply wrap64_of_range
    · unfold time.Second
      norm_num
      omega
    · unfold time.Second
      norm_num
      omega
  rw [hrange]
  have hneg : -((digitsValue ds 0 : Nat) : Int) * time.Second < 0 := by
    unfold time.Second
    omega
  rw [if_pos hneg]

/-- C15, as stated, fails: "-9223372037" is an integer, `strconv.Atoi` parses it to the
negative number -9223372037, and `ParseDelay` does not fail on it: the product with
`time.Second` does not fit in an `int64` and wraps to 9223372036709551616 nanoseconds,
which is returned without error. -/
theorem C15_negative_integer_accepted :
    time.ParseDuration (fun _ _ _ => 0) (lit "-9223372037")
        = some (0, some (.external "time: missing unit in duration")) ∧
      strconv.Atoi (lit "-9223372037") = (-9223372037, none) ∧
      (-9223372037 : Int) < 0 ∧
      ParseDelay (fun _ _ _ => 0) (lit "-9223372037") = some (9223372036709551616, none) := by
  decide

/-- C15, amended: on every string `ParseDelay` returns an error or a duration that is not
negative.  It returns an error on the empty string, on a string that neither
`time.ParseDuration` nor `strconv.Atoi` can parse, whenever `time.ParseDuration` parses the
string to a negative duration, and whenever `strconv.Atoi` parses it to an integer from
-9223372036 to -1, so on every minus sign followed by digits whose number is from 1 to
9223372036; so on "-1s", on "-5" and on "invalid".  On "0" it returns the zero duration
and no error. -/
theorem C15_parseDelay_errors (fr : Nat → Nat → Nat → Nat) (s ds : GoString) (pd sec : Int)
    (pe ae : GoError) :
    (∃ d e, ParseDelay fr s = some (d, e) ∧ (e = none → 0 ≤ d)) ∧
      ParseDelay fr (lit "") = some (0, some (.errorf "delay string cannot be empty" [])) ∧
      (s ≠ [] → time.ParseDuration fr s = some (pd, some pe) →
        strconv.Atoi s = (sec, some ae) →
        ParseDelay fr s = some (0, some (.errorf "invalid delay format: %s" [.str s]))) ∧
      (s ≠ [] → time.ParseDuration fr s = some (pd, none) → pd < 0 →
        ParseDelay fr s = some (0, some (.errorf "delay cannot be negative" []))) ∧
      (s ≠ [] → time.ParseDuration fr s = some (pd, some pe) →
        strconv.Atoi s = (sec, none) → sec < 0 → -9223372036 ≤ sec →
        ParseDelay fr s = some (0, some (.errorf "delay cannot be negative" []))) ∧
      (ds ≠ [] → ds.all isDigit = true → 1 ≤ digitsValue ds 0 →
        digitsValue ds 0 ≤ 9223372036 →
        ParseDelay fr ((0x2D : Byte) :: ds)
          = some (0, some (.errorf "delay cannot be negative" []))) ∧
      ParseDelay fr (lit "-1s") = some (0, some (.errorf "delay cannot be negative" [])) ∧
      ParseDelay fr (lit "-5") = some (0, some (.errorf "delay cannot be negative" [])) ∧
      ParseDelay fr (lit "invalid")
        = some (0, some (.errorf "invalid delay format: %s" [.str (lit "invalid")])) ∧
      ParseDelay fr (lit "0") = some (0, none) := by
  refine ⟨ParseDelay_nonneg fr s, rfl, ?_, ?_, ?_, ?_, rfl, rfl, rfl, rfl⟩
  · intro h0 hp ha
    exact ParseDelay_of_neither fr s pd sec pe ae h0 hp ha
  · intro h0 hp hneg
    rw [ParseDelay_of_duration fr s pd h0 hp, if_pos hneg]
  · intro h0 hp ha hneg hlow
    rw [ParseDelay_of_seconds fr s pd sec pe h0 hp ha]
    have hrange : wrap64 (sec * time.Second) = sec * time.Second := by
      apply wrap64_of_range
      · unfold time.Second
        norm_num
        omega
      · unfold time.Second
        norm_num
        omega
    rw [hrange]
    have hlt : sec * time.Second < 0 := by
      unfold time.Second
      omega
    rw [if_pos hlt]
  · intro hne hall h1 hb
    exact ParseDelay_minus_digits fr ds hne hall h1 hb

/-- C15 amended, at "-1s", where `time.ParseDuration` gives minus one second, at "-5", where
`strconv.Atoi` gives minus five, at "invalid", which neither parses, and at the minus sign
followed by the digits "9223372036". -/
theorem C15_parseDelay_errors_witness :
    (lit "-1s" ≠ [] ∧
        time.ParseDuration (fun _ _ _ => 0) (lit "-1s") = some (-1000000000, none) ∧
        (-1000000000 : Int) < 0 ∧
        ParseDelay (fun _ _ _ => 0) (lit "-1s")
          = some (0, some (.errorf "delay cannot be negative" []))) ∧
      (lit "-5" ≠ [] ∧
        time.ParseDuration (fun _ _ _ => 0) (lit "-5")
          = some (0, some (.external "time: missing unit in duration")) ∧
        strconv.Atoi (lit "-5") = (-5, none) ∧ (-5 : Int) < 0 ∧ (-9223372036 : Int) ≤ -5 ∧
        ParseDelay (fun _ _ _ => 0) (lit "-5")
          = some (0, some (.errorf "delay cannot be negative" []))) ∧
      (lit "invalid" ≠ [] ∧
        time.ParseDuration (fun _ _ _ => 0) (lit "invalid")
          = some (0, some (.external "time: invalid duration")) ∧
        strconv.Atoi (lit "invalid") = (0, some (.external "strconv.Atoi: invalid syntax")) ∧
        ParseDelay (fun _ _ _ => 0) (lit "invalid")
          = some (0, some (.errorf "invalid delay format: %s" [.str (lit "invalid")]))) ∧
      (lit "9223372036" ≠ [] ∧ (lit "9223372036").all isDigit = true ∧
        1 ≤ digitsValue (lit "9223372036") 0 ∧
        digitsValue (lit "9223372036") 0 ≤ 9223372036 ∧
        ParseDelay (fun _ _ _ => 0) ((0x2D : Byte) :: lit "9223372036")
          = some (0, some (.errorf "delay cannot be negative" []))) :=
  ⟨⟨by decide, by decide, by decide,
      (C15_parseDelay_errors (fun _ _ _ => 0) (lit "-1s") [] (-1000000000) 0
        (.external "") (.external "")).2.2.2.1 (by decide) (by decide) (by decide)⟩,
    ⟨by decide, by decide, by decide, by decide, by decide,
      (C15_parseDelay_errors (fun _ _ _ => 0) (lit "-5") [] 0 (-5)
        (.external "time: missing unit in duration") (.external "")).2.2.2.2.1
        (by decide) (by decide) (by decide) (by decide) (by decide)⟩,
    ⟨by decide, by decide, by decide,
      (C15_parseDelay_errors (fun _ _ _ => 0) (lit "invalid") [] 0 0
        (.external "time: invalid duration")
        (.external "strconv.Atoi: invalid syntax")).2.2.1
        (by decide) (by decide) (by decide)⟩,
    ⟨by decide, by decide, by decide, by decide,
      (C15_parseDelay_errors (fun _ _ _ => 0) [] (lit "9223372036") 0 0
        (.external "") (.external "")).2.2.2.2.2.1
        (by decide) (by decide) (by decide) (by decide)⟩⟩

end DirectWebSpider
